import Mathlib

/-!
Verification development for the `networking-local` image-tracking
synchronization component (`server.js`, class `NetworkedImageTrackingSync`).

The component state and all message handlers are shallowly embedded below.
Scalars (positions, rotation components, matrix entries) are modelled as
rational numbers; timestamps as integers; the entity registry
(`syncedObjects : Map<string, SyncedTrackedObject>`) as an association list
with JavaScript `Map` semantics (unique keys, insertion order, in-place
value replacement).

The host engine's quaternion spherical interpolation (`Quaternion.slerp`)
is trigonometric and lives outside the synchronization component; it is
taken as an explicit function parameter `slerpFn` wherever the code calls
it, and every theorem below holds for an arbitrary such function.
-/

namespace ImageSync

-- ===========================================================================
-- Scalar containers mirroring the three.js types used by the component
-- ===========================================================================

/-- three.js `Vector3` with rational coordinates. -/
@[ext] structure Vector3 where
  x : ℚ
  y : ℚ
  z : ℚ
deriving DecidableEq

/-- three.js `Quaternion` with rational components. -/
@[ext] structure Quaternion where
  x : ℚ
  y : ℚ
  z : ℚ
  w : ℚ
deriving DecidableEq

/-- Hamilton product, exactly the component formulas of
three.js `Quaternion.multiplyQuaternions(a, b)`. -/
def Quaternion.mul (a b : Quaternion) : Quaternion where
  x := a.x * b.w + a.w * b.x + a.y * b.z - a.z * b.y
  y := a.y * b.w + a.w * b.y + a.z * b.x - a.x * b.z
  z := a.z * b.w + a.w * b.z + a.x * b.y - a.y * b.x
  w := a.w * b.w - a.x * b.x - a.y * b.y - a.z * b.z

/-- three.js `Quaternion.conjugate`; `Quaternion.invert` delegates to it
(the engine assumes unit quaternions). -/
def Quaternion.conjugate (q : Quaternion) : Quaternion where
  x := -q.x
  y := -q.y
  z := -q.z
  w := q.w

/-- Squared norm of a quaternion. -/
def Quaternion.normSq (q : Quaternion) : ℚ :=
  q.x * q.x + q.y * q.y + q.z * q.z + q.w * q.w

/-- three.js `Vector3.lerp(v, alpha)`: move each component an `alpha`
fraction of the way toward the target. -/
def Vector3.lerp (p target : Vector3) (alpha : ℚ) : Vector3 where
  x := p.x + (target.x - p.x) * alpha
  y := p.y + (target.y - p.y) * alpha
  z := p.z + (target.z - p.z) * alpha

-- ===========================================================================
-- 4x4 matrices (three.js Matrix4): application to points and inversion
-- ===========================================================================

/-- three.js `Matrix4`, written with mathematical row/column indices
(`nij` = row `i`, column `j`; three.js stores the same entries
column-major). -/
@[ext] structure Matrix4 where
  n11 : ℚ
  n12 : ℚ
  n13 : ℚ
  n14 : ℚ
  n21 : ℚ
  n22 : ℚ
  n23 : ℚ
  n24 : ℚ
  n31 : ℚ
  n32 : ℚ
  n33 : ℚ
  n34 : ℚ
  n41 : ℚ
  n42 : ℚ
  n43 : ℚ
  n44 : ℚ
deriving DecidableEq

/-- three.js `Vector3.applyMatrix4`: treat the vector as a point with
`w = 1` and divide by the resulting homogeneous coordinate. -/
def Vector3.applyMatrix4 (v : Vector3) (m : Matrix4) : Vector3 :=
  let wd := m.n41 * v.x + m.n42 * v.y + m.n43 * v.z + m.n44
  { x := (m.n11 * v.x + m.n12 * v.y + m.n13 * v.z + m.n14) / wd
    y := (m.n21 * v.x + m.n22 * v.y + m.n23 * v.z + m.n24) / wd
    z := (m.n31 * v.x + m.n32 * v.y + m.n33 * v.z + m.n34) / wd }

/-- Determinant of a 3x3 matrix given by rows. -/
def det3 (a11 a12 a13 a21 a22 a23 a31 a32 a33 : ℚ) : ℚ :=
  a11 * (a22 * a33 - a23 * a32) - a12 * (a21 * a33 - a23 * a31)
    + a13 * (a21 * a32 - a22 * a31)

/-- Determinant of a `Matrix4` (cofactor expansion along the first row),
as computed inside three.js `Matrix4.invert`. -/
def Matrix4.det (m : Matrix4) : ℚ :=
  m.n11 * det3 m.n22 m.n23 m.n24 m.n32 m.n33 m.n34 m.n42 m.n43 m.n44
    - m.n12 * det3 m.n21 m.n23 m.n24 m.n31 m.n33 m.n34 m.n41 m.n43 m.n44
    + m.n13 * det3 m.n21 m.n22 m.n24 m.n31 m.n32 m.n34 m.n41 m.n42 m.n44
    - m.n14 * det3 m.n21 m.n22 m.n23 m.n31 m.n32 m.n33 m.n41 m.n42 m.n43

/-- The all-zero matrix, three.js's fallback result when inverting a
singular matrix. -/
def Matrix4.zero : Matrix4 :=
  ⟨0, 0, 0, 0, 0, 0, 0, 0, 0, 0, 0, 0, 0, 0, 0, 0⟩

/-- The identity matrix. -/
def Matrix4.one : Matrix4 :=
  ⟨1, 0, 0, 0, 0, 1, 0, 0, 0, 0, 1, 0, 0, 0, 0, 1⟩

/-- three.js `Matrix4.invert`: classical adjugate inverse
(entry `(i, j)` of the inverse is the `(j, i)` cofactor divided by the
determinant), with the zero matrix returned when the determinant
vanishes. -/
def Matrix4.invert (m : Matrix4) : Matrix4 :=
  if m.det = 0 then Matrix4.zero else
  { n11 := det3 m.n22 m.n23 m.n24 m.n32 m.n33 m.n34 m.n42 m.n43 m.n44 / m.det
    n12 := -det3 m.n12 m.n13 m.n14 m.n32 m.n33 m.n34 m.n42 m.n43 m.n44 / m.det
    n13 := det3 m.n12 m.n13 m.n14 m.n22 m.n23 m.n24 m.n42 m.n43 m.n44 / m.det
    n14 := -det3 m.n12 m.n13 m.n14 m.n22 m.n23 m.n24 m.n32 m.n33 m.n34 / m.det
    n21 := -det3 m.n21 m.n23 m.n24 m.n31 m.n33 m.n34 m.n41 m.n43 m.n44 / m.det
    n22 := det3 m.n11 m.n13 m.n14 m.n31 m.n33 m.n34 m.n41 m.n43 m.n44 / m.det
    n23 := -det3 m.n11 m.n13 m.n14 m.n21 m.n23 m.n24 m.n41 m.n43 m.n44 / m.det
    n24 := det3 m.n11 m.n13 m.n14 m.n21 m.n23 m.n24 m.n31 m.n33 m.n34 / m.det
    n31 := det3 m.n21 m.n22 m.n24 m.n31 m.n32 m.n34 m.n41 m.n42 m.n44 / m.det
    n32 := -det3 m.n11 m.n12 m.n14 m.n31 m.n32 m.n34 m.n41 m.n42 m.n44 / m.det
    n33 := det3 m.n11 m.n12 m.n14 m.n21 m.n22 m.n24 m.n41 m.n42 m.n44 / m.det
    n34 := -det3 m.n11 m.n12 m.n14 m.n21 m.n22 m.n24 m.n31 m.n32 m.n34 / m.det
    n41 := -det3 m.n21 m.n22 m.n23 m.n31 m.n32 m.n33 m.n41 m.n42 m.n43 / m.det
    n42 := det3 m.n11 m.n12 m.n13 m.n31 m.n32 m.n33 m.n41 m.n42 m.n43 / m.det
    n43 := -det3 m.n11 m.n12 m.n13 m.n21 m.n22 m.n23 m.n41 m.n42 m.n43 / m.det
    n44 := det3 m.n11 m.n12 m.n13 m.n21 m.n22 m.n23 m.n31 m.n32 m.n33 / m.det }

/-- Matrix product (row-by-column). -/
def Matrix4.mul (a b : Matrix4) : Matrix4 where
  n11 := a.n11 * b.n11 + a.n12 * b.n21 + a.n13 * b.n31 + a.n14 * b.n41
  n12 := a.n11 * b.n12 + a.n12 * b.n22 + a.n13 * b.n32 + a.n14 * b.n42
  n13 := a.n11 * b.n13 + a.n12 * b.n23 + a.n13 * b.n33 + a.n14 * b.n43
  n14 := a.n11 * b.n14 + a.n12 * b.n24 + a.n13 * b.n34 + a.n14 * b.n44
  n21 := a.n21 * b.n11 + a.n22 * b.n21 + a.n23 * b.n31 + a.n24 * b.n41
  n22 := a.n21 * b.n12 + a.n22 * b.n22 + a.n23 * b.n32 + a.n24 * b.n42
  n23 := a.n21 * b.n13 + a.n22 * b.n23 + a.n23 * b.n33 + a.n24 * b.n43
  n24 := a.n21 * b.n14 + a.n22 * b.n24 + a.n23 * b.n34 + a.n24 * b.n44
  n31 := a.n31 * b.n11 + a.n32 * b.n21 + a.n33 * b.n31 + a.n34 * b.n41
  n32 := a.n31 * b.n12 + a.n32 * b.n22 + a.n33 * b.n32 + a.n34 * b.n42
  n33 := a.n31 * b.n13 + a.n32 * b.n23 + a.n33 * b.n33 + a.n34 * b.n43
  n34 := a.n31 * b.n14 + a.n32 * b.n24 + a.n33 * b.n34 + a.n34 * b.n44
  n41 := a.n41 * b.n11 + a.n42 * b.n21 + a.n43 * b.n31 + a.n44 * b.n41
  n42 := a.n41 * b.n12 + a.n42 * b.n22 + a.n43 * b.n32 + a.n44 * b.n42
  n43 := a.n41 * b.n13 + a.n42 * b.n23 + a.n43 * b.n33 + a.n44 * b.n43
  n44 := a.n41 * b.n14 + a.n42 * b.n24 + a.n43 * b.n34 + a.n44 * b.n44

/-- An affine matrix: bottom row `(0, 0, 0, 1)`.  Every three.js object
world matrix (composed from position, rotation, scale) is affine. -/
def Matrix4.IsAffine (m : Matrix4) : Prop :=
  m.n41 = 0 ∧ m.n42 = 0 ∧ m.n43 = 0 ∧ m.n44 = 1

instance (m : Matrix4) : Decidable m.IsAffine := by
  unfold Matrix4.IsAffine; infer_instance

-- ===========================================================================
-- Wire messages (server.js lines 71-99) and message topic constants
-- ===========================================================================

/-- `MSG_TRACKED_IMAGE_SPAWN` (server.js line 113). -/
def MSG_TRACKED_IMAGE_SPAWN : String := "tracked-image-spawn"

/-- `MSG_TRACKED_IMAGE_TRANSFORM` (server.js line 114). -/
def MSG_TRACKED_IMAGE_TRANSFORM : String := "tracked-image-transform"

/-- `MSG_TRACKED_IMAGE_DESPAWN` (server.js line 115). -/
def MSG_TRACKED_IMAGE_DESPAWN : String := "tracked-image-despawn"

/-- `MSG_TRACKED_IMAGE_OWNERSHIP` (server.js line 116). -/
def MSG_TRACKED_IMAGE_OWNERSHIP : String := "tracked-image-ownership"

/-- `MSG_TRACKED_IMAGE_STATE_REQUEST` (server.js line 117). -/
def MSG_TRACKED_IMAGE_STATE_REQUEST : String := "tracked-image-state-request"

/-- `MSG_TRACKED_IMAGE_STATE_RESPONSE` (server.js line 118). -/
def MSG_TRACKED_IMAGE_STATE_RESPONSE : String := "tracked-image-state-response"

/-- `RoomEvents.JoinedRoom` from the engine; the concrete string value is
external to this repository and immaterial to every claim. -/
def ROOM_EVENT_JOINED : String := "room-event-joined-room"

/-- `RoomEvents.UserLeftRoom` from the engine; concrete value immaterial. -/
def ROOM_EVENT_USER_LEFT : String := "room-event-user-left-room"

/-- `TrackedImageSpawnMessage` (server.js lines 71-78). -/
structure TrackedImageSpawnMessage where
  senderId : String
  imageId : String
  assetIndex : ℤ
  relativePosition : Vector3
  relativeRotation : Quaternion
  timestamp : ℤ
deriving DecidableEq

/-- `TrackedImageTransformMessage` (server.js lines 80-86). -/
structure TrackedImageTransformMessage where
  senderId : String
  imageId : String
  relativePosition : Vector3
  relativeRotation : Quaternion
  timestamp : ℤ
deriving DecidableEq

/-- `TrackedImageDespawnMessage` (server.js lines 88-92). -/
structure TrackedImageDespawnMessage where
  senderId : String
  imageId : String
  timestamp : ℤ
deriving DecidableEq

/-- The `action` field of an ownership message: `"request" | "release"`. -/
inductive OwnershipAction where
  | request
  | release
deriving DecidableEq

/-- `TrackedImageOwnershipMessage` (server.js lines 94-99). -/
structure TrackedImageOwnershipMessage where
  senderId : String
  imageId : String
  action : OwnershipAction
  timestamp : ℤ
deriving DecidableEq

/-- The state-response payload built in `onReceiveStateRequest`
(server.js lines 445-453).  `targetId = none` models an absent field;
JavaScript also treats an empty-string `targetId` as falsy, which the
receiver guard below reproduces. -/
structure StateResponseMessage where
  targetId : Option String
  imageId : String
  assetIndex : ℤ
  ownerId : String
  relativePosition : Vector3
  relativeRotation : Quaternion
  timestamp : ℤ
deriving DecidableEq

-- ===========================================================================
-- Component state: host objects, entity records, registry
-- ===========================================================================

/-- The host-scene `Object3D` held by a record: an opaque instance handle
plus the pose fields mutated by `applyRelativeTransform`, and whether the
instance is parented directly under the sandbox root. -/
structure HostObject where
  handle : ℕ
  position : Vector3
  quaternion : Quaternion
  parentIsSandboxRoot : Bool
deriving DecidableEq

/-- `SyncedTrackedObject` (server.js lines 101-107). -/
structure SyncedTrackedObject where
  object : HostObject
  ownerId : String
  assetIndex : ℤ
  lastUpdate : ℤ
  isLocallyTracked : Bool
deriving DecidableEq

/-- The `syncedObjects` map, modelled as an association list with unique
keys in insertion order (JavaScript `Map` semantics). -/
abbrev Registry := List (String × SyncedTrackedObject)

/-- `Map.get`: first binding for the key. -/
def Registry.find? (reg : Registry) (id : String) : Option SyncedTrackedObject :=
  match reg with
  | [] => none
  | (k, v) :: t => if k = id then some v else Registry.find? t id

/-- `Map.set` / in-place mutation of a looked-up record: replace the value
at the key if present, otherwise append the new binding (JavaScript `Map`
inserts new keys at the end of the iteration order). -/
def Registry.store (reg : Registry) (id : String) (v : SyncedTrackedObject) : Registry :=
  match reg with
  | [] => [(id, v)]
  | (k, w) :: t => if k = id then (k, v) :: t else (k, w) :: Registry.store t id v

/-- `Map.delete`: drop every binding for the key (with unique keys this is
exactly JavaScript `Map.delete`). -/
def Registry.removeKey (reg : Registry) (id : String) : Registry :=
  match reg with
  | [] => []
  | (k, v) :: t =>
      if k = id then Registry.removeKey t id else (k, v) :: Registry.removeKey t id

/-- The sandbox root as seen by the coordinate-transform code: its world
matrix (`sandboxRoot.matrixWorld`) and world rotation
(`sandboxRoot.getWorldQuaternion`). -/
structure Anchor where
  matrixWorld : Matrix4
  worldQuaternion : Quaternion
deriving DecidableEq

/-- Immutable environment of the component: local peer identity
(`getLocalId`), the optional sandbox root, configuration, and the
collaborator facts consulted by handlers (`isInRoom`,
`WebARSessionRoot.hasPlaced`, whether `imageTracking` is assigned, and
which asset indices have a loadable tracked-image object). -/
structure SyncContext where
  localId : String
  sandboxRoot : Option Anchor
  interpolationFactor : ℚ
  updateInterval : ℤ
  isInRoom : Bool
  hasPlaced : Bool
  imageTrackingAssigned : Bool
  assetOk : ℤ → Bool

/-- Mutable component state: the registry plus the shared transform-send
throttle clock `lastUpdateTime`. -/
structure SyncState where
  syncedObjects : Registry
  lastUpdateTime : ℤ

/-- The empty initial state set up in `awake`. -/
def SyncState.initial : SyncState :=
  { syncedObjects := [], lastUpdateTime := 0 }

/-- The host engine's `Quaternion.slerp`, trigonometric and external to
this component; every theorem holds for an arbitrary choice. -/
abbrev SlerpFn := Quaternion → Quaternion → ℚ → Quaternion

-- ===========================================================================
-- Coordinate transform (server.js lines 562-629)
-- ===========================================================================

/-- The world-position computation of the non-parented branch of
`applyRelativeTransform` (server.js line 619):
`relPos.applyMatrix4(sandboxRoot.matrixWorld)`. -/
def toWorldPosition (a : Anchor) (relPos : Vector3) : Vector3 :=
  relPos.applyMatrix4 a.matrixWorld

/-- The world-rotation computation of the non-parented branch of
`applyRelativeTransform` (server.js line 622):
`relRot.premultiply(sandboxRoot world quaternion)`. -/
def toWorldRotation (a : Anchor) (relRot : Quaternion) : Quaternion :=
  a.worldQuaternion.mul relRot

/-- `calculateRelativeTransform` (server.js lines 562-581): `none` when the
sandbox root is unassigned; otherwise the world position is transformed by
the inverted sandbox world matrix and the world rotation is premultiplied
by the inverted (conjugated) sandbox world quaternion. -/
def calculateRelativeTransform (sandboxRoot : Option Anchor)
    (worldPos : Vector3) (worldRot : Quaternion) :
    Option (Vector3 × Quaternion) :=
  match sandboxRoot with
  | none => none
  | some a =>
      some (worldPos.applyMatrix4 a.matrixWorld.invert,
            (a.worldQuaternion.conjugate).mul worldRot)

/-- `applyRelativeTransform` (server.js lines 602-629): no-op without a
sandbox root; local-space lerp/slerp when the object is parented under the
sandbox root, otherwise compute the world pose through the anchor frame
and lerp/slerp toward it. -/
def applyRelativeTransform (slerpFn : SlerpFn) (sandboxRoot : Option Anchor)
    (interpolationFactor : ℚ) (obj : HostObject)
    (relPos : Vector3) (relRot : Quaternion) : HostObject :=
  match sandboxRoot with
  | none => obj
  | some a =>
      if obj.parentIsSandboxRoot then
        { obj with
            position := obj.position.lerp relPos interpolationFactor
            quaternion := slerpFn obj.quaternion relRot interpolationFactor }
      else
        { obj with
            position := obj.position.lerp (toWorldPosition a relPos) interpolationFactor
            quaternion := slerpFn obj.quaternion (toWorldRotation a relRot) interpolationFactor }

-- ===========================================================================
-- Object management (server.js lines 494-556)
-- ===========================================================================

/-- `createTrackedObject` (server.js lines 494-536), one atomic run of the
asynchronous function.  The outcome of
`trackedImages[assetIndex].object.loadAssetAsync()` followed by
`GameObject.instantiate` is supplied as the oracle `load` (`none` covers a
failed or null load/instantiation, in which case nothing is registered).
On success the instance is parented under the sandbox root when one is
assigned, the relative transform is applied, and the record is stored. -/
def createTrackedObject (slerpFn : SlerpFn) (ctx : SyncContext)
    (reg : Registry) (m : TrackedImageSpawnMessage)
    (load : Option HostObject) : Registry :=
  if ¬ctx.imageTrackingAssigned then reg
  else if ¬ctx.assetOk m.assetIndex then reg
  else
    match load with
    | none => reg
    | some inst =>
        let inst1 : HostObject := { inst with parentIsSandboxRoot := ctx.sandboxRoot.isSome }
        let inst2 := applyRelativeTransform slerpFn ctx.sandboxRoot
          ctx.interpolationFactor inst1 m.relativePosition m.relativeRotation
        Registry.store reg m.imageId
          { object := inst2
            ownerId := m.senderId
            assetIndex := m.assetIndex
            lastUpdate := m.timestamp
            isLocallyTracked := m.senderId == ctx.localId }

/-- `removeTrackedObject` (server.js lines 538-548): destroy the host
representation and delete the record; no-op for an unknown id. -/
def removeTrackedObject (reg : Registry) (imageId : String) : Registry :=
  match Registry.find? reg imageId with
  | none => reg
  | some _ => Registry.removeKey reg imageId

-- ===========================================================================
-- Network receivers (server.js lines 386-488)
-- ===========================================================================

/-- `onReceiveSpawn` (server.js lines 386-399).  For a registered id:
adopt the sender as owner only when the incoming timestamp is strictly
older than the stored one, leaving pose, asset index and stored timestamp
untouched.  For an unknown id: `createTrackedObject`. -/
def onReceiveSpawn (slerpFn : SlerpFn) (ctx : SyncContext) (reg : Registry)
    (m : TrackedImageSpawnMessage) (load : Option HostObject) : Registry :=
  match Registry.find? reg m.imageId with
  | some existingData =>
      if m.timestamp < existingData.lastUpdate then
        Registry.store reg m.imageId
          { existingData with
              ownerId := m.senderId
              isLocallyTracked := m.senderId == ctx.localId }
      else reg
  | none => createTrackedObject slerpFn ctx reg m load

/-- `onReceiveTransform` (server.js lines 401-410): guarded application of
an incoming relative pose. -/
def onReceiveTransform (slerpFn : SlerpFn) (ctx : SyncContext)
    (reg : Registry) (m : TrackedImageTransformMessage) : Registry :=
  match Registry.find? reg m.imageId with
  | none => reg
  | some data =>
      if m.senderId ≠ data.ownerId then reg
      else if m.senderId = ctx.localId ∧ data.isLocallyTracked then reg
      else if m.timestamp < data.lastUpdate then reg
      else
        Registry.store reg m.imageId
          { data with
              object := applyRelativeTransform slerpFn ctx.sandboxRoot
                ctx.interpolationFactor data.object m.relativePosition m.relativeRotation
              lastUpdate := m.timestamp }

/-- `onReceiveDespawn` (server.js lines 412-420): remove the entity iff the
sender is the stored owner; the message timestamp is never consulted. -/
def onReceiveDespawn (reg : Registry) (m : TrackedImageDespawnMessage) : Registry :=
  match Registry.find? reg m.imageId with
  | none => reg
  | some data =>
      if m.senderId ≠ data.ownerId then reg
      else removeTrackedObject reg m.imageId

/-- `onReceiveOwnership` (server.js lines 422-436).  A request is granted
unless the local peer is the confirmed exclusive owner; a release clears
`ownerId` to the empty string when the sender is the stored owner, leaving
`isLocallyTracked` untouched. -/
def onReceiveOwnership (ctx : SyncContext) (reg : Registry)
    (m : TrackedImageOwnershipMessage) : Registry :=
  match Registry.find? reg m.imageId with
  | none => reg
  | some data =>
      match m.action with
      | OwnershipAction.request =>
          if ¬data.isLocallyTracked ∨ data.ownerId ≠ ctx.localId then
            Registry.store reg m.imageId
              { data with
                  ownerId := m.senderId
                  isLocallyTracked := m.senderId == ctx.localId }
          else reg
      | OwnershipAction.release =>
          if data.ownerId = m.senderId then
            Registry.store reg m.imageId { data with ownerId := "" }
          else reg

/-- The receiver guard `message.targetId && message.targetId !==
this.getLocalId()` (server.js line 460), with JavaScript falsiness of an
absent or empty `targetId`. -/
def stateResponseAddressedElsewhere (ctx : SyncContext)
    (m : StateResponseMessage) : Bool :=
  match m.targetId with
  | none => false
  | some t => t ≠ "" && t != ctx.localId

/-- `onReceiveStateResponse` (server.js lines 459-472): ignore when
addressed to a different peer; otherwise create the entity only when the
id is not yet registered, treating the snapshot as a spawn from
`message.ownerId`. -/
def onReceiveStateResponse (slerpFn : SlerpFn) (ctx : SyncContext)
    (reg : Registry) (m : StateResponseMessage) (load : Option HostObject) : Registry :=
  if stateResponseAddressedElsewhere ctx m then reg
  else if (Registry.find? reg m.imageId).isSome then reg
  else
    createTrackedObject slerpFn ctx reg
      { senderId := m.ownerId
        imageId := m.imageId
        assetIndex := m.assetIndex
        relativePosition := m.relativePosition
        relativeRotation := m.relativeRotation
        timestamp := m.timestamp } load

/-- `onUserLeft` (server.js lines 482-488): remove every entity owned by
the departed peer (iteration with per-entry `removeTrackedObject`, which
with unique keys equals a single filter). -/
def onUserLeft (reg : Registry) (userId : String) : Registry :=
  reg.filter (fun kv => kv.2.ownerId ≠ userId)

-- ===========================================================================
-- Detection-event handler (server.js lines 270-322)
-- ===========================================================================

/-- One entry of the detection batch: the index of its model in
`imageTracking.trackedImages` (`-1` when absent) and the world pose read
through `getPosition` / `getQuaternion`. -/
structure TrackedImage where
  index : ℤ
  worldPosition : Vector3
  worldQuaternion : Quaternion
deriving DecidableEq

/-- `getImageId` (server.js lines 646-650). -/
def getImageId (image : TrackedImage) : String :=
  "tracked_image_" ++ toString image.index

/-- `getAssetIndex` (server.js lines 652-655). -/
def getAssetIndex (image : TrackedImage) : ℤ :=
  image.index

/-- `canSync` (server.js lines 635-640). -/
def canSync (ctx : SyncContext) : Bool :=
  ctx.isInRoom && ctx.sandboxRoot.isSome && ctx.hasPlaced

/-- Messages published through `context.connection.send`. -/
inductive SentMessage where
  | spawn (m : TrackedImageSpawnMessage)
  | transform (m : TrackedImageTransformMessage)
  | despawn (m : TrackedImageDespawnMessage)
  | ownership (m : TrackedImageOwnershipMessage)
deriving DecidableEq

/-- `sendSpawnMessage` (server.js lines 328-339): the spawn payload built
from the local peer id, the image id and asset index, the relative
transform, and `Date.now()`. -/
def sendSpawnMessage (ctx : SyncContext) (imageId : String) (assetIndex : ℤ)
    (rel : Vector3 × Quaternion) (now : ℤ) : TrackedImageSpawnMessage :=
  { senderId := ctx.localId
    imageId := imageId
    assetIndex := assetIndex
    relativePosition := rel.1
    relativeRotation := rel.2
    timestamp := now }

/-- The per-image body of the loop in `onImageTrackingUpdate`
(server.js lines 279-301): decide which message, if any, this image
triggers.  The registry is not mutated by the loop. -/
def processImage (ctx : SyncContext) (reg : Registry) (shouldSendUpdate : Bool)
    (now : ℤ) (image : TrackedImage) : List SentMessage :=
  match calculateRelativeTransform ctx.sandboxRoot image.worldPosition image.worldQuaternion with
  | none => []
  | some rel =>
      match Registry.find? reg (getImageId image) with
      | none =>
          [SentMessage.spawn
            (sendSpawnMessage ctx (getImageId image) (getAssetIndex image) rel now)]
      | some existingData =>
          if existingData.isLocallyTracked && shouldSendUpdate then
            [SentMessage.transform
              { senderId := ctx.localId
                imageId := getImageId image
                relativePosition := rel.1
                relativeRotation := rel.2
                timestamp := now }]
          else if ¬existingData.isLocallyTracked ∧ existingData.ownerId ≠ ctx.localId then
            [SentMessage.ownership
              { senderId := ctx.localId
                imageId := getImageId image
                action := OwnershipAction.request
                timestamp := now }]
          else []

/-- `checkForLostTracking` (server.js lines 311-322): every locally
tracked entity whose id is absent from the current detection batch gets an
ownership release and a despawn sent, and is removed. -/
def checkForLostTracking (ctx : SyncContext) (reg : Registry)
    (currentIds : List String) (now : ℤ) : Registry × List SentMessage :=
  reg.foldl
    (fun acc kv =>
      if kv.2.isLocallyTracked ∧ ¬currentIds.contains kv.1 then
        (removeTrackedObject acc.1 kv.1,
         acc.2 ++
           [SentMessage.ownership
              { senderId := ctx.localId, imageId := kv.1
                action := OwnershipAction.release, timestamp := now },
            SentMessage.despawn
              { senderId := ctx.localId, imageId := kv.1, timestamp := now }])
      else acc)
    (reg, [])

/-- `onImageTrackingUpdate` (server.js lines 270-309): throttled sends for
each detected image followed by lost-tracking cleanup.  `now` stands for
`Date.now()`, read once per invocation. -/
def onImageTrackingUpdate (ctx : SyncContext) (st : SyncState)
    (images : List TrackedImage) (now : ℤ) : SyncState × List SentMessage :=
  if ¬canSync ctx then (st, [])
  else if images.isEmpty then (st, [])
  else
    let shouldSendUpdate : Bool := decide (ctx.updateInterval ≤ now - st.lastUpdateTime)
    let sends := (images.map (processImage ctx st.syncedObjects shouldSendUpdate now)).flatten
    let lastUpdateTime1 := if shouldSendUpdate then now else st.lastUpdateTime
    let cleanup := checkForLostTracking ctx st.syncedObjects (images.map getImageId) now
    ({ syncedObjects := cleanup.1, lastUpdateTime := lastUpdateTime1 },
     sends ++ cleanup.2)

-- ===========================================================================
-- Atomic handler steps (used by the invariant claims)
-- ===========================================================================

/-- One event-loop turn of the component: a message receipt (with its
asset-load oracle where creation may happen), a peer departure, or a
detection batch. -/
inductive SyncOp where
  | recvSpawn (m : TrackedImageSpawnMessage) (load : Option HostObject)
  | recvTransform (m : TrackedImageTransformMessage)
  | recvDespawn (m : TrackedImageDespawnMessage)
  | recvOwnership (m : TrackedImageOwnershipMessage)
  | recvStateResponse (m : StateResponseMessage) (load : Option HostObject)
  | userLeft (userId : String)
  | tracking (images : List TrackedImage) (now : ℤ)

/-- Apply one handler invocation to the component state. -/
def applyOp (slerpFn : SlerpFn) (ctx : SyncContext) (st : SyncState) :
    SyncOp → SyncState
  | SyncOp.recvSpawn m load =>
      { st with syncedObjects := onReceiveSpawn slerpFn ctx st.syncedObjects m load }
  | SyncOp.recvTransform m =>
      { st with syncedObjects := onReceiveTransform slerpFn ctx st.syncedObjects m }
  | SyncOp.recvDespawn m =>
      { st with syncedObjects := onReceiveDespawn st.syncedObjects m }
  | SyncOp.recvOwnership m =>
      { st with syncedObjects := onReceiveOwnership ctx st.syncedObjects m }
  | SyncOp.recvStateResponse m load =>
      { st with syncedObjects := onReceiveStateResponse slerpFn ctx st.syncedObjects m load }
  | SyncOp.userLeft uid =>
      { st with syncedObjects := onUserLeft st.syncedObjects uid }
  | SyncOp.tracking images now =>
      (onImageTrackingUpdate ctx st images now).1

/-- Run a sequence of handler invocations from a starting state. -/
def runOps (slerpFn : SlerpFn) (ctx : SyncContext) (st : SyncState)
    (ops : List SyncOp) : SyncState :=
  ops.foldl (applyOp slerpFn ctx) st

-- ===========================================================================
-- Teardown (server.js lines 237-254 and 550-556)
-- ===========================================================================

/-- The externally observable actions performed by `onDisable`, in program
order. -/
inductive DisableAction where
  | unsubscribeImageTracking
  | stopListen (topic : String)
  | sendDespawn (imageId : String)
  | releaseEntry (imageId : String)
deriving DecidableEq

/-- `despawnAllLocallyTracked` (server.js lines 550-556): send a despawn
for every locally tracked entity; nothing is removed or destroyed. -/
def despawnAllLocallyTracked (reg : Registry) : List DisableAction :=
  (reg.filter (fun kv => kv.2.isLocallyTracked)).map
    (fun kv => DisableAction.sendDespawn kv.1)

/-- The unsubscription section of `onDisable` (server.js lines 238-250):
the image-tracking listener removal (when assigned) followed by the eight
`stopListen` calls, in program order. -/
def onDisableUnsubActions (ctx : SyncContext) : List DisableAction :=
  (if ctx.imageTrackingAssigned then [DisableAction.unsubscribeImageTracking] else [])
    ++ [DisableAction.stopListen MSG_TRACKED_IMAGE_SPAWN,
        DisableAction.stopListen MSG_TRACKED_IMAGE_TRANSFORM,
        DisableAction.stopListen MSG_TRACKED_IMAGE_DESPAWN,
        DisableAction.stopListen MSG_TRACKED_IMAGE_OWNERSHIP,
        DisableAction.stopListen MSG_TRACKED_IMAGE_STATE_REQUEST,
        DisableAction.stopListen MSG_TRACKED_IMAGE_STATE_RESPONSE,
        DisableAction.stopListen ROOM_EVENT_JOINED,
        DisableAction.stopListen ROOM_EVENT_USER_LEFT]

/-- `onDisable` (server.js lines 237-254) as its action trace: the
image-tracking listener is removed (when assigned), the eight network
topics are unsubscribed, and only then does `despawnAllLocallyTracked`
run.  No registry entry is released here (that happens in `onDestroy`). -/
def onDisableTrace (ctx : SyncContext) (st : SyncState) : List DisableAction :=
  onDisableUnsubActions ctx ++ despawnAllLocallyTracked st.syncedObjects

/-- Whether an action is a listener/topic unsubscription. -/
def DisableAction.isUnsubscribe : DisableAction → Bool
  | DisableAction.unsubscribeImageTracking => true
  | DisableAction.stopListen _ => true
  | _ => false

/-- Whether an action is a despawn send. -/
def DisableAction.isSendDespawn : DisableAction → Bool
  | DisableAction.sendDespawn _ => true
  | _ => false

-- ===========================================================================
-- The asynchronous create (server.js lines 494-536) at await granularity
-- ===========================================================================

/-- State of the component when `createTrackedObject`'s suspension at
`await loadAssetAsync()` is made explicit: besides the registry, the spawn
messages whose loads are in flight, the log of instances the scene host
has been asked to create (`GameObject.instantiate`), and a fresh-handle
counter. -/
structure AsyncState where
  syncedObjects : Registry
  pendingLoads : List TrackedImageSpawnMessage
  instantiated : List (String × ℕ)
  nextHandle : ℕ
deriving DecidableEq

/-- The empty asynchronous state. -/
def AsyncState.initial : AsyncState :=
  { syncedObjects := [], pendingLoads := [], instantiated := [], nextHandle := 0 }

/-- An event-loop step of the refined model: a spawn message arrives (its
handler runs up to the `await`), or one pending load completes (the rest
of `createTrackedObject` runs: instantiate, parent, apply transform,
`syncedObjects.set`). -/
inductive AsyncOp where
  | spawnArrives (m : TrackedImageSpawnMessage)
  | loadCompletes (k : ℕ)

/-- The post-`await` remainder of `createTrackedObject`: instantiate a
fresh host object, apply the relative transform, and store the record —
with no re-check that the id is still unregistered, mirroring
server.js lines 504-528. -/
def finishCreate (slerpFn : SlerpFn) (ctx : SyncContext) (st : AsyncState)
    (m : TrackedImageSpawnMessage) : AsyncState :=
  let inst : HostObject :=
    { handle := st.nextHandle
      position := ⟨0, 0, 0⟩
      quaternion := ⟨0, 0, 0, 1⟩
      parentIsSandboxRoot := ctx.sandboxRoot.isSome }
  let inst2 := applyRelativeTransform slerpFn ctx.sandboxRoot
    ctx.interpolationFactor inst m.relativePosition m.relativeRotation
  { syncedObjects :=
      Registry.store st.syncedObjects m.imageId
        { object := inst2
          ownerId := m.senderId
          assetIndex := m.assetIndex
          lastUpdate := m.timestamp
          isLocallyTracked := m.senderId == ctx.localId }
    pendingLoads := st.pendingLoads
    instantiated := st.instantiated ++ [(m.imageId, st.nextHandle)]
    nextHandle := st.nextHandle + 1 }

/-- Apply one refined event-loop step.  On arrival, `onReceiveSpawn`'s
known-id branch runs synchronously; otherwise `createTrackedObject` starts
and suspends at the `await`, leaving the load pending. -/
def applyAsyncOp (slerpFn : SlerpFn) (ctx : SyncContext) (st : AsyncState) :
    AsyncOp → AsyncState
  | AsyncOp.spawnArrives m =>
      match Registry.find? st.syncedObjects m.imageId with
      | some existingData =>
          let updated : Registry :=
            if m.timestamp < existingData.lastUpdate then
              Registry.store st.syncedObjects m.imageId
                { existingData with
                    ownerId := m.senderId
                    isLocallyTracked := m.senderId == ctx.localId }
            else st.syncedObjects
          { st with syncedObjects := updated }
      | none =>
          if ctx.imageTrackingAssigned ∧ ctx.assetOk m.assetIndex then
            { st with pendingLoads := st.pendingLoads ++ [m] }
          else st
  | AsyncOp.loadCompletes k =>
      match st.pendingLoads.get? k with
      | none => st
      | some m =>
          finishCreate slerpFn ctx
            { st with pendingLoads := st.pendingLoads.eraseIdx k } m

/-- Run a schedule of refined steps from a starting state. -/
def runAsyncOps (slerpFn : SlerpFn) (ctx : SyncContext) (st : AsyncState)
    (ops : List AsyncOp) : AsyncState :=
  ops.foldl (applyAsyncOp slerpFn ctx) st

/-- How many host-scene instances were ever created for an id. -/
def instancesFor (st : AsyncState) (imageId : String) : ℕ :=
  (st.instantiated.filter (fun p => p.1 = imageId)).length

-- ===========================================================================
-- Registry lemmas
-- ===========================================================================

theorem Registry.find?_store_self (reg : Registry) (id : String)
    (v : SyncedTrackedObject) :
    Registry.find? (Registry.store reg id v) id = some v := by
  induction reg with
  | nil => simp [Registry.store, Registry.find?]
  | cons kv t ih =>
      obtain ⟨k, w⟩ := kv
      by_cases h : k = id
      · simp [Registry.store, Registry.find?, h]
      · simp [Registry.store, Registry.find?, h, ih]

theorem Registry.find?_store_ne (reg : Registry) (id id' : String)
    (v : SyncedTrackedObject) (h : id' ≠ id) :
    Registry.find? (Registry.store reg id v) id' = Registry.find? reg id' := by
  have hne : ¬id = id' := fun he => h he.symm
  induction reg with
  | nil => simp [Registry.store, Registry.find?, hne]
  | cons kv t ih =>
      obtain ⟨k, w⟩ := kv
      by_cases hk : k = id
      · subst hk
        simp [Registry.store, Registry.find?, hne]
      · by_cases hk' : k = id'
        · subst hk'
          simp [Registry.store, Registry.find?, hk]
        · simp [Registry.store, Registry.find?, hk, hk', ih]

theorem Registry.find?_removeKey (reg : Registry) (id id' : String) :
    Registry.find? (Registry.removeKey reg id) id' =
      if id' = id then none else Registry.find? reg id' := by
  induction reg with
  | nil => simp [Registry.removeKey, Registry.find?]
  | cons kv t ih =>
      obtain ⟨k, w⟩ := kv
      by_cases hk : k = id
      · subst hk
        rw [Registry.removeKey, if_pos rfl, ih]
        by_cases h' : id' = k
        · simp [h']
        · have : ¬k = id' := fun he => h' he.symm
          simp [h', Registry.find?, this]
      · rw [Registry.removeKey, if_neg hk]
        by_cases hk' : k = id'
        · subst hk'
          have : ¬k = id := hk
          simp [Registry.find?, this]
        · simp [Registry.find?, hk', ih]

theorem Registry.find?_some_mem (reg : Registry) (id : String)
    (r : SyncedTrackedObject) (h : Registry.find? reg id = some r) :
    (id, r) ∈ reg := by
  induction reg with
  | nil => simp [Registry.find?] at h
  | cons kv t ih =>
      obtain ⟨k, w⟩ := kv
      by_cases hk : k = id
      · subst hk
        simp [Registry.find?] at h
        subst h
        exact List.mem_cons_self _ _
      · simp [Registry.find?, hk] at h
        exact List.mem_cons_of_mem _ (ih h)

theorem Registry.find?_eq_none_of_not_mem_keys (reg : Registry) (id : String)
    (h : id ∉ reg.map Prod.fst) : Registry.find? reg id = none := by
  induction reg with
  | nil => rfl
  | cons kv t ih =>
      obtain ⟨k, w⟩ := kv
      simp only [List.map_cons, List.mem_cons, not_or] at h
      have hne : ¬k = id := fun he => h.1 he.symm
      simp [Registry.find?, hne, ih h.2]

theorem Registry.mem_store (reg : Registry) (id : String)
    (v : SyncedTrackedObject) (kv : String × SyncedTrackedObject)
    (h : kv ∈ Registry.store reg id v) : kv ∈ reg ∨ kv = (id, v) := by
  induction reg with
  | nil =>
      simp [Registry.store] at h
      simp [h]
  | cons hd t ih =>
      obtain ⟨k, w⟩ := hd
      by_cases hk : k = id
      · subst hk
        simp [Registry.store, List.mem_cons] at h
        rcases h with h | h
        · right; simp [h]
        · left; exact List.mem_cons_of_mem _ h
      · simp only [Registry.store, if_neg hk, List.mem_cons] at h
        rcases h with h | h
        · left; simp [h]
        · rcases ih h with h2 | h2
          · left; exact List.mem_cons_of_mem _ h2
          · right; exact h2

theorem Registry.mem_removeKey (reg : Registry) (id : String)
    (kv : String × SyncedTrackedObject)
    (h : kv ∈ Registry.removeKey reg id) : kv ∈ reg := by
  induction reg with
  | nil => simpa [Registry.removeKey] using h
  | cons hd t ih =>
      obtain ⟨k, w⟩ := hd
      by_cases hk : k = id
      · rw [Registry.removeKey, if_pos hk] at h
        exact List.mem_cons_of_mem _ (ih h)
      · rw [Registry.removeKey, if_neg hk] at h
        rcases List.mem_cons.mp h with h2 | h2
        · exact h2 ▸ List.mem_cons_self _ _
        · exact List.mem_cons_of_mem _ (ih h2)

/-- Well-formedness of the registry model: unique keys, as guaranteed by
JavaScript `Map`. -/
def Registry.WF (reg : Registry) : Prop :=
  (reg.map Prod.fst).Nodup

instance (reg : Registry) : Decidable (Registry.WF reg) := by
  unfold Registry.WF; infer_instance

theorem Registry.WF_nil : Registry.WF [] := by
  simp [Registry.WF]

theorem Registry.keys_store (reg : Registry) (id : String)
    (v : SyncedTrackedObject) :
    (Registry.store reg id v).map Prod.fst = reg.map Prod.fst ∨
    (Registry.store reg id v).map Prod.fst = reg.map Prod.fst ++ [id] := by
  induction reg with
  | nil => right; simp [Registry.store]
  | cons kv t ih =>
      obtain ⟨k, w⟩ := kv
      by_cases hk : k = id
      · left; simp [Registry.store, hk]
      · rcases ih with h | h
        · left; simp [Registry.store, hk, h]
        · right; simp [Registry.store, hk, h]

theorem Registry.WF_store (reg : Registry) (id : String)
    (v : SyncedTrackedObject) (h : Registry.WF reg) :
    Registry.WF (Registry.store reg id v) := by
  induction reg with
  | nil => simp [Registry.store, Registry.WF]
  | cons kv t ih =>
      obtain ⟨k, w⟩ := kv
      rw [Registry.WF, List.map_cons, List.nodup_cons] at h
      by_cases hk : k = id
      · subst hk
        have hs : Registry.store ((k, w) :: t) k v = (k, v) :: t := by
          simp [Registry.store]
        rw [hs, Registry.WF, List.map_cons, List.nodup_cons]
        exact ⟨h.1, h.2⟩
      · have hs : Registry.store ((k, w) :: t) id v = (k, w) :: Registry.store t id v := by
          simp [Registry.store, hk]
        rw [hs, Registry.WF, List.map_cons, List.nodup_cons]
        refine ⟨?_, ih h.2⟩
        rcases Registry.keys_store t id v with h2 | h2
        · rw [h2]; exact h.1
        · rw [h2]
          intro hmem
          rcases List.mem_append.mp hmem with hmem | hmem
          · exact h.1 hmem
          · exact hk (by simpa using hmem)

theorem Registry.WF_filter (reg : Registry)
    (p : String × SyncedTrackedObject → Bool) (h : Registry.WF reg) :
    Registry.WF (reg.filter p) := by
  exact List.Nodup.sublist (List.Sublist.map _ (List.filter_sublist reg)) h

theorem Registry.WF_removeKey (reg : Registry) (id : String)
    (h : Registry.WF reg) : Registry.WF (Registry.removeKey reg id) := by
  induction reg with
  | nil => simpa [Registry.removeKey] using h
  | cons kv t ih =>
      obtain ⟨k, w⟩ := kv
      rw [Registry.WF, List.map_cons, List.nodup_cons] at h
      by_cases hk : k = id
      · rw [Registry.removeKey, if_pos hk]
        exact ih h.2
      · rw [Registry.removeKey, if_neg hk]
        rw [Registry.WF, List.map_cons, List.nodup_cons]
        refine ⟨?_, ih h.2⟩
        intro hmem
        apply h.1
        rcases List.mem_map.mp hmem with ⟨p2, hp2, hfst⟩
        exact List.mem_map.mpr ⟨p2, Registry.mem_removeKey t id p2 hp2, hfst⟩

theorem Registry.find?_filter_of_wf (reg : Registry)
    (p : String × SyncedTrackedObject → Bool) (id : String)
    (r : SyncedTrackedObject) (hwf : Registry.WF reg)
    (h : Registry.find? (reg.filter p) id = some r) :
    Registry.find? reg id = some r := by
  induction reg with
  | nil => simpa [Registry.find?] using h
  | cons kv t ih =>
      obtain ⟨k, w⟩ := kv
      rw [Registry.WF, List.map_cons, List.nodup_cons] at hwf
      rw [List.filter_cons] at h
      by_cases hp : p (k, w) = true
      · rw [if_pos hp] at h
        by_cases hk : k = id
        · subst hk
          simp [Registry.find?] at h
          simp [Registry.find?, h]
        · simp [Registry.find?, hk] at h
          have := ih hwf.2 h
          simpa [Registry.find?, hk] using this
      · rw [if_neg hp] at h
        by_cases hk : k = id
        · subst hk
          have hnone : Registry.find? (List.filter p t) k = none := by
            apply Registry.find?_eq_none_of_not_mem_keys
            intro hmem
            apply hwf.1
            have hsub : List.Sublist ((List.filter p t).map Prod.fst)
                (t.map Prod.fst) :=
              List.Sublist.map _ (List.filter_sublist t)
            exact hsub.subset hmem
          rw [hnone] at h
          exact absurd h (by simp)
        · have := ih hwf.2 h
          simpa [Registry.find?, hk] using this

theorem removeTrackedObject_find?_some (reg : Registry) (k id : String)
    (r : SyncedTrackedObject)
    (h : Registry.find? (removeTrackedObject reg k) id = some r) :
    Registry.find? reg id = some r := by
  unfold removeTrackedObject at h
  cases hf : Registry.find? reg k with
  | none => rwa [hf] at h
  | some w =>
      rw [hf, Registry.find?_removeKey] at h
      split at h
      · simp at h
      · exact h

theorem removeTrackedObject_WF (reg : Registry) (k : String)
    (h : Registry.WF reg) : Registry.WF (removeTrackedObject reg k) := by
  unfold removeTrackedObject
  cases Registry.find? reg k with
  | none => exact h
  | some w => exact Registry.WF_removeKey reg k h

-- ===========================================================================
-- Concrete fixtures shared by the witness theorems
-- ===========================================================================

/-- A concrete slerp instance (jump to the target) for witnesses. -/
def wSlerp : SlerpFn := fun _ b _ => b

/-- A concrete context for witnesses: local peer `"peer-A"`, no sandbox
root assigned. -/
def wCtx : SyncContext :=
  { localId := "peer-A"
    sandboxRoot := none
    interpolationFactor := 3 / 10
    updateInterval := 50
    isInRoom := true
    hasPlaced := true
    imageTrackingAssigned := true
    assetOk := fun _ => true }

/-- A concrete host object for witnesses. -/
def wObj : HostObject :=
  { handle := 0
    position := ⟨0, 0, 0⟩
    quaternion := ⟨0, 0, 0, 1⟩
    parentIsSandboxRoot := true }

/-- A concrete record owned by the remote peer `"peer-B"`. -/
def wData : SyncedTrackedObject :=
  { object := wObj
    ownerId := "peer-B"
    assetIndex := 0
    lastUpdate := 100
    isLocallyTracked := false }

/-- A concrete one-entry registry. -/
def wReg : Registry := [("tracked_image_0", wData)]

/-- A concrete transform message from the stored owner, fresh timestamp. -/
def wTMsg : TrackedImageTransformMessage :=
  { senderId := "peer-B"
    imageId := "tracked_image_0"
    relativePosition := ⟨1, 2, 3⟩
    relativeRotation := ⟨0, 0, 0, 1⟩
    timestamp := 150 }

/-- A concrete spawn re-announcement with an older timestamp. -/
def wSMsg : TrackedImageSpawnMessage :=
  { senderId := "peer-A"
    imageId := "tracked_image_0"
    assetIndex := 0
    relativePosition := ⟨0, 0, 0⟩
    relativeRotation := ⟨0, 0, 0, 1⟩
    timestamp := 50 }

/-- A concrete despawn from the stored owner with a stale timestamp. -/
def wDMsg : TrackedImageDespawnMessage :=
  { senderId := "peer-B", imageId := "tracked_image_0", timestamp := 10 }

-- ===========================================================================
-- C1: Transform acceptance condition
-- ===========================================================================

/-- The acceptance condition claimed for an incoming Transform message:
sender is the stored owner, the sender is not the local peer while the
entity is locally driven, and the timestamp is not older than the stored
one. -/
def transformAccepted (ctx : SyncContext) (data : SyncedTrackedObject)
    (m : TrackedImageTransformMessage) : Prop :=
  m.senderId = data.ownerId ∧
    ¬(m.senderId = ctx.localId ∧ data.isLocallyTracked) ∧
    data.lastUpdate ≤ m.timestamp

instance (ctx : SyncContext) (data : SyncedTrackedObject)
    (m : TrackedImageTransformMessage) :
    Decidable (transformAccepted ctx data m) := by
  unfold transformAccepted; infer_instance

/-- C1: for a registered entity, `onReceiveTransform` applies the pose
update (storing the applied object and the message timestamp) exactly when
the sender is the stored owner, the sender is not the local peer while the
entity is locally driven, and the timestamp is at least the stored one; in
every other case the registry — pose, owner and timestamp included — is
returned unchanged. -/
theorem C1_transform_applied_iff (slerpFn : SlerpFn) (ctx : SyncContext)
    (reg : Registry) (m : TrackedImageTransformMessage)
    (data : SyncedTrackedObject)
    (hreg : Registry.find? reg m.imageId = some data) :
    (transformAccepted ctx data m →
      onReceiveTransform slerpFn ctx reg m =
        Registry.store reg m.imageId
          { data with
              object := applyRelativeTransform slerpFn ctx.sandboxRoot
                ctx.interpolationFactor data.object m.relativePosition
                m.relativeRotation
              lastUpdate := m.timestamp }) ∧
    (¬transformAccepted ctx data m →
      onReceiveTransform slerpFn ctx reg m = reg) := by
  constructor
  · rintro ⟨h1, h2, h3⟩
    simp only [onReceiveTransform, hreg]
    rw [if_neg (not_not_intro h1), if_neg h2, if_neg (not_lt.mpr h3)]
  · intro hno
    simp only [onReceiveTransform, hreg]
    by_cases h1 : m.senderId = data.ownerId
    · by_cases h2 : m.senderId = ctx.localId ∧ data.isLocallyTracked
      · rw [if_neg (not_not_intro h1), if_pos h2]
      · by_cases h3 : m.timestamp < data.lastUpdate
        · rw [if_neg (not_not_intro h1), if_neg h2, if_pos h3]
        · exact absurd ⟨h1, h2, not_lt.mp h3⟩ hno
    · rw [if_pos h1]

/-- Witness for C1 at a concrete accepted message. -/
theorem C1_transform_applied_iff_witness :
    onReceiveTransform wSlerp wCtx wReg wTMsg =
      Registry.store wReg wTMsg.imageId
        { wData with
            object := applyRelativeTransform wSlerp wCtx.sandboxRoot
              wCtx.interpolationFactor wData.object wTMsg.relativePosition
              wTMsg.relativeRotation
            lastUpdate := wTMsg.timestamp } :=
  (C1_transform_applied_iff wSlerp wCtx wReg wTMsg wData (by decide)).1
    (by decide)

-- ===========================================================================
-- C2: Spawn re-announcement for a known id
-- ===========================================================================

/-- C2: for a Spawn whose id is already registered, a strictly older
timestamp makes the handler adopt the sender as owner (with
`isLocallyTracked` true exactly when the sender is the local peer) while
pose, asset index and stored timestamp stay unchanged; a timestamp that is
not older changes nothing. -/
theorem C2_spawn_known_id (slerpFn : SlerpFn) (ctx : SyncContext)
    (reg : Registry) (m : TrackedImageSpawnMessage)
    (load : Option HostObject) (existingData : SyncedTrackedObject)
    (hreg : Registry.find? reg m.imageId = some existingData) :
    (m.timestamp < existingData.lastUpdate →
      onReceiveSpawn slerpFn ctx reg m load =
        Registry.store reg m.imageId
          { existingData with
              ownerId := m.senderId
              isLocallyTracked := m.senderId == ctx.localId }) ∧
    (existingData.lastUpdate ≤ m.timestamp →
      onReceiveSpawn slerpFn ctx reg m load = reg) := by
  constructor
  · intro h
    simp only [onReceiveSpawn, hreg]
    rw [if_pos h]
  · intro h
    simp only [onReceiveSpawn, hreg]
    rw [if_neg (not_lt.mpr h)]

/-- Witness for C2 at a concrete older-timestamp spawn. -/
theorem C2_spawn_known_id_witness :
    onReceiveSpawn wSlerp wCtx wReg wSMsg none =
      Registry.store wReg wSMsg.imageId
        { wData with
            ownerId := wSMsg.senderId
            isLocallyTracked := wSMsg.senderId == wCtx.localId } :=
  (C2_spawn_known_id wSlerp wCtx wReg wSMsg none wData (by decide)).1
    (by decide)

-- ===========================================================================
-- C10: Despawn ignores timestamps
-- ===========================================================================

/-- C10: `onReceiveDespawn` never consults the message timestamp; for a
registered entity it removes the record (and its host representation)
exactly when the sender is the stored owner — even when the timestamp is
strictly older than the stored one — and changes nothing for any other
sender or for an unregistered id. -/
theorem C10_despawn_no_timestamp_check (reg : Registry)
    (m : TrackedImageDespawnMessage) :
    (∀ t : ℤ, onReceiveDespawn reg { m with timestamp := t } =
      onReceiveDespawn reg m) ∧
    (∀ data : SyncedTrackedObject,
      Registry.find? reg m.imageId = some data →
        (m.senderId = data.ownerId →
          onReceiveDespawn reg m = Registry.removeKey reg m.imageId ∧
          Registry.find? (onReceiveDespawn reg m) m.imageId = none) ∧
        (m.senderId ≠ data.ownerId → onReceiveDespawn reg m = reg)) ∧
    (Registry.find? reg m.imageId = none → onReceiveDespawn reg m = reg) := by
  refine ⟨fun t => rfl, fun data hreg => ?_, fun hnone => ?_⟩
  · constructor
    · intro howner
      have hrem : onReceiveDespawn reg m = Registry.removeKey reg m.imageId := by
        simp only [onReceiveDespawn, removeTrackedObject, hreg]
        rw [if_neg (not_not_intro howner)]
      refine ⟨hrem, ?_⟩
      rw [hrem, Registry.find?_removeKey, if_pos rfl]
    · intro hother
      simp only [onReceiveDespawn, hreg]
      rw [if_pos hother]
  · simp only [onReceiveDespawn, hnone]

/-- Witness for C10: the stale-timestamp despawn from the owner removes
the concrete entity. -/
theorem C10_despawn_no_timestamp_check_witness :
    onReceiveDespawn wReg wDMsg = Registry.removeKey wReg wDMsg.imageId ∧
    Registry.find? (onReceiveDespawn wReg wDMsg) wDMsg.imageId = none :=
  (((C10_despawn_no_timestamp_check wReg wDMsg).2.1 wData (by decide)).1
    (by decide))

-- ===========================================================================
-- C4: per-record timestamp monotonicity
-- ===========================================================================

/-- Between two registry snapshots: every record surviving under its id
has a timestamp at least the old one. -/
def MonotoneStep (pre post : Registry) : Prop :=
  ∀ id r r', Registry.find? pre id = some r →
    Registry.find? post id = some r' → r.lastUpdate ≤ r'.lastUpdate

theorem MonotoneStep.of_sub {pre post : Registry}
    (h : ∀ id r', Registry.find? post id = some r' →
      Registry.find? pre id = some r') :
    MonotoneStep pre post := by
  intro id r r' hr hr'
  have h2 := h id r' hr'
  rw [hr] at h2
  injection h2 with he
  rw [he]

theorem MonotoneStep.refl (reg : Registry) : MonotoneStep reg reg :=
  MonotoneStep.of_sub (fun _ _ h => h)

theorem createTrackedObject_cases (slerpFn : SlerpFn) (ctx : SyncContext)
    (reg : Registry) (m : TrackedImageSpawnMessage) (load : Option HostObject) :
    createTrackedObject slerpFn ctx reg m load = reg ∨
    ∃ v : SyncedTrackedObject,
      v.ownerId = m.senderId ∧ v.assetIndex = m.assetIndex ∧
      v.lastUpdate = m.timestamp ∧
      v.isLocallyTracked = (m.senderId == ctx.localId) ∧
      createTrackedObject slerpFn ctx reg m load =
        Registry.store reg m.imageId v := by
  unfold createTrackedObject
  by_cases h1 : ctx.imageTrackingAssigned
  · rw [if_neg (not_not_intro h1)]
    by_cases h2 : ctx.assetOk m.assetIndex
    · rw [if_neg (not_not_intro h2)]
      cases load with
      | none => left; rfl
      | some inst =>
          right
          refine ⟨{ object := applyRelativeTransform slerpFn ctx.sandboxRoot
                      ctx.interpolationFactor
                      { inst with parentIsSandboxRoot := ctx.sandboxRoot.isSome }
                      m.relativePosition m.relativeRotation
                    ownerId := m.senderId
                    assetIndex := m.assetIndex
                    lastUpdate := m.timestamp
                    isLocallyTracked := m.senderId == ctx.localId },
            rfl, rfl, rfl, rfl, rfl⟩
    · rw [if_pos h2]
      left; rfl
  · rw [if_pos h1]
    left; rfl

theorem monotone_onReceiveTransform (slerpFn : SlerpFn) (ctx : SyncContext)
    (reg : Registry) (m : TrackedImageTransformMessage) :
    MonotoneStep reg (onReceiveTransform slerpFn ctx reg m) := by
  intro id r r' h h'
  unfold onReceiveTransform at h'
  cases hx : Registry.find? reg m.imageId with
  | none =>
      rw [hx] at h'
      simp only [] at h'
      rw [h] at h'
      injection h' with he
      rw [he]
  | some data =>
      rw [hx] at h'
      simp only [] at h'
      split_ifs at h' with h1 h2 h3
      · rw [h] at h'; injection h' with he; rw [he]
      · rw [h] at h'; injection h' with he; rw [he]
      · rw [h] at h'; injection h' with he; rw [he]
      · by_cases hid : id = m.imageId
        · subst hid
          rw [Registry.find?_store_self] at h'
          rw [hx] at h
          injection h' with he
          injection h with he2
          subst he
          subst he2
          simpa using not_lt.mp h3
        · rw [Registry.find?_store_ne _ _ _ _ hid] at h'
          rw [h] at h'
          injection h' with he
          rw [he]

theorem monotone_onReceiveSpawn (slerpFn : SlerpFn) (ctx : SyncContext)
    (reg : Registry) (m : TrackedImageSpawnMessage) (load : Option HostObject) :
    MonotoneStep reg (onReceiveSpawn slerpFn ctx reg m load) := by
  intro id r r' h h'
  unfold onReceiveSpawn at h'
  cases hx : Registry.find? reg m.imageId with
  | some existingData =>
      rw [hx] at h'
      simp only [] at h'
      split_ifs at h' with h1
      · by_cases hid : id = m.imageId
        · subst hid
          rw [Registry.find?_store_self] at h'
          rw [hx] at h
          injection h' with he
          injection h with he2
          subst he
          subst he2
          simp
        · rw [Registry.find?_store_ne _ _ _ _ hid] at h'
          rw [h] at h'
          injection h' with he
          rw [he]
      · rw [h] at h'; injection h' with he; rw [he]
  | none =>
      rw [hx] at h'
      simp only [] at h'
      rcases createTrackedObject_cases slerpFn ctx reg m load with hc | ⟨v, _, _, _, _, hc⟩
      · rw [hc, h] at h'; injection h' with he; rw [he]
      · rw [hc] at h'
        have hid : id ≠ m.imageId := by
          intro he
          rw [he, hx] at h
          cases h
        rw [Registry.find?_store_ne _ _ _ _ hid, h] at h'
        injection h' with he
        rw [he]

theorem monotone_onReceiveOwnership (ctx : SyncContext) (reg : Registry)
    (m : TrackedImageOwnershipMessage) :
    MonotoneStep reg (onReceiveOwnership ctx reg m) := by
  intro id r r' h h'
  unfold onReceiveOwnership at h'
  cases hx : Registry.find? reg m.imageId with
  | none =>
      rw [hx] at h'
      simp only [] at h'
      rw [h] at h'; injection h' with he; rw [he]
  | some data =>
      rw [hx] at h'
      simp only [] at h'
      have hstore : ∀ v : SyncedTrackedObject, v.lastUpdate = data.lastUpdate →
          Registry.find? (Registry.store reg m.imageId v) id = some r' →
          r.lastUpdate ≤ r'.lastUpdate := by
        intro v hv hz
        by_cases hid : id = m.imageId
        · subst hid
          rw [Registry.find?_store_self] at hz
          rw [hx] at h
          injection hz with he
          injection h with he2
          subst he
          subst he2
          exact hv.ge
        · rw [Registry.find?_store_ne _ _ _ _ hid] at hz
          rw [h] at hz
          injection hz with he
          rw [he]
      cases hact : m.action with
      | request =>
          simp only [hact] at h'
          split_ifs at h' with h1
          · exact hstore
              { data with
                  ownerId := m.senderId
                  isLocallyTracked := m.senderId == ctx.localId } rfl h'
          · rw [h] at h'; injection h' with he; rw [he]
      | release =>
          simp only [hact] at h'
          split_ifs at h' with h1
          · exact hstore { data with ownerId := "" } rfl h'
          · rw [h] at h'; injection h' with he; rw [he]

theorem sub_onReceiveDespawn (reg : Registry) (m : TrackedImageDespawnMessage) :
    ∀ id r', Registry.find? (onReceiveDespawn reg m) id = some r' →
      Registry.find? reg id = some r' := by
  intro id r' h'
  unfold onReceiveDespawn at h'
  cases hx : Registry.find? reg m.imageId with
  | none => rw [hx] at h'; simp only [] at h'; exact h'
  | some data =>
      rw [hx] at h'
      simp only [] at h'
      split_ifs at h' with h1
      · exact h'
      · exact removeTrackedObject_find?_some reg m.imageId id r' h'

theorem monotone_onReceiveStateResponse (slerpFn : SlerpFn) (ctx : SyncContext)
    (reg : Registry) (m : StateResponseMessage) (load : Option HostObject) :
    MonotoneStep reg (onReceiveStateResponse slerpFn ctx reg m load) := by
  intro id r r' h h'
  unfold onReceiveStateResponse at h'
  split_ifs at h' with h1 h2
  · rw [h] at h'; injection h' with he; rw [he]
  · rw [h] at h'; injection h' with he; rw [he]
  · have hx : Registry.find? reg m.imageId = none := by
      cases hy : Registry.find? reg m.imageId with
      | none => rfl
      | some w => rw [hy] at h2; simp at h2
    rcases createTrackedObject_cases slerpFn ctx reg
        { senderId := m.ownerId
          imageId := m.imageId
          assetIndex := m.assetIndex
          relativePosition := m.relativePosition
          relativeRotation := m.relativeRotation
          timestamp := m.timestamp } load with hc | ⟨v, _, _, _, _, hc⟩
    · rw [hc, h] at h'; injection h' with he; rw [he]
    · rw [hc] at h'
      have hid : id ≠ m.imageId := by
        intro he
        rw [he, hx] at h
        cases h
      rw [Registry.find?_store_ne _ _ _ _ hid, h] at h'
      injection h' with he
      rw [he]

theorem foldl_step_sub {α : Type}
    (g : (Registry × List SentMessage) → α → (Registry × List SentMessage))
    (hg : ∀ acc x id r', Registry.find? (g acc x).1 id = some r' →
      Registry.find? acc.1 id = some r')
    (entries : List α) :
    ∀ acc id r', Registry.find? (entries.foldl g acc).1 id = some r' →
      Registry.find? acc.1 id = some r' := by
  induction entries with
  | nil => intro acc id r' h; exact h
  | cons x t ih => intro acc id r' h; exact hg _ _ _ _ (ih _ _ _ h)

theorem checkForLostTracking_sub (ctx : SyncContext) (reg : Registry)
    (ids : List String) (now : ℤ) :
    ∀ id r', Registry.find? (checkForLostTracking ctx reg ids now).1 id = some r' →
      Registry.find? reg id = some r' := by
  intro id r' h
  unfold checkForLostTracking at h
  refine foldl_step_sub _ ?_ reg (reg, []) id r' h
  intro acc kv id2 r2 h2
  by_cases hc : kv.2.isLocallyTracked ∧ ¬ids.contains kv.1
  · rw [if_pos hc] at h2
    exact removeTrackedObject_find?_some acc.1 kv.1 id2 r2 h2
  · rwa [if_neg hc] at h2

theorem sub_onImageTrackingUpdate (ctx : SyncContext) (st : SyncState)
    (images : List TrackedImage) (now : ℤ) :
    ∀ id r', Registry.find?
        (onImageTrackingUpdate ctx st images now).1.syncedObjects id = some r' →
      Registry.find? st.syncedObjects id = some r' := by
  intro id r' h
  unfold onImageTrackingUpdate at h
  by_cases h1 : canSync ctx
  · rw [if_neg (not_not_intro h1)] at h
    by_cases h2 : images.isEmpty
    · rw [if_pos h2] at h
      exact h
    · rw [if_neg h2] at h
      exact checkForLostTracking_sub ctx st.syncedObjects
        (images.map getImageId) now id r' h
  · rw [if_pos h1] at h
    exact h

/-- C4: across any single handler invocation (hence any sequence of them),
a record that exists before and after under the same id never sees its
`lastUpdate` decrease: Transform only stores timestamps at least the
stored one, Spawn re-announcements and Ownership messages leave it
unchanged, and the remaining handlers only remove or freshly create
records. -/
theorem C4_lastUpdate_monotone (slerpFn : SlerpFn) (ctx : SyncContext)
    (st : SyncState) (op : SyncOp) (id : String)
    (r r' : SyncedTrackedObject)
    (hwf : Registry.WF st.syncedObjects)
    (h : Registry.find? st.syncedObjects id = some r)
    (h' : Registry.find? (applyOp slerpFn ctx st op).syncedObjects id = some r') :
    r.lastUpdate ≤ r'.lastUpdate := by
  cases op with
  | recvSpawn m load =>
      exact monotone_onReceiveSpawn slerpFn ctx st.syncedObjects m load id r r' h h'
  | recvTransform m =>
      exact monotone_onReceiveTransform slerpFn ctx st.syncedObjects m id r r' h h'
  | recvDespawn m =>
      exact MonotoneStep.of_sub (sub_onReceiveDespawn st.syncedObjects m) id r r' h h'
  | recvOwnership m =>
      exact monotone_onReceiveOwnership ctx st.syncedObjects m id r r' h h'
  | recvStateResponse m load =>
      exact monotone_onReceiveStateResponse slerpFn ctx st.syncedObjects m load id r r' h h'
  | userLeft uid =>
      refine MonotoneStep.of_sub ?_ id r r' h h'
      intro id2 r2 h2
      exact Registry.find?_filter_of_wf st.syncedObjects _ id2 r2 hwf h2
  | tracking images now =>
      exact MonotoneStep.of_sub (sub_onImageTrackingUpdate ctx st images now) id r r' h h'

/-- Witness for C4: a fresh transform raises the concrete record's
timestamp from 100 to 150. -/
theorem C4_lastUpdate_monotone_witness :
    wData.lastUpdate ≤
      ({ wData with
          object := applyRelativeTransform wSlerp wCtx.sandboxRoot
            wCtx.interpolationFactor wData.object wTMsg.relativePosition
            wTMsg.relativeRotation
          lastUpdate := wTMsg.timestamp } : SyncedTrackedObject).lastUpdate :=
  C4_lastUpdate_monotone wSlerp wCtx
    { syncedObjects := wReg, lastUpdateTime := 0 }
    (SyncOp.recvTransform wTMsg) "tracked_image_0" wData _
    (by decide) (by decide) (by decide)

-- ===========================================================================
-- Handler equation lemmas
-- ===========================================================================

theorem onReceiveSpawn_eq_some (slerpFn : SlerpFn) (ctx : SyncContext)
    (reg : Registry) (m : TrackedImageSpawnMessage) (load : Option HostObject)
    (existingData : SyncedTrackedObject)
    (hx : Registry.find? reg m.imageId = some existingData) :
    onReceiveSpawn slerpFn ctx reg m load =
      if m.timestamp < existingData.lastUpdate then
        Registry.store reg m.imageId
          { existingData with
              ownerId := m.senderId
              isLocallyTracked := m.senderId == ctx.localId }
      else reg := by
  unfold onReceiveSpawn
  rw [hx]

theorem onReceiveSpawn_eq_none (slerpFn : SlerpFn) (ctx : SyncContext)
    (reg : Registry) (m : TrackedImageSpawnMessage) (load : Option HostObject)
    (hx : Registry.find? reg m.imageId = none) :
    onReceiveSpawn slerpFn ctx reg m load =
      createTrackedObject slerpFn ctx reg m load := by
  unfold onReceiveSpawn
  rw [hx]

theorem onReceiveTransform_eq_some (slerpFn : SlerpFn) (ctx : SyncContext)
    (reg : Registry) (m : TrackedImageTransformMessage)
    (data : SyncedTrackedObject)
    (hx : Registry.find? reg m.imageId = some data) :
    onReceiveTransform slerpFn ctx reg m =
      if m.senderId ≠ data.ownerId then reg
      else if m.senderId = ctx.localId ∧ data.isLocallyTracked then reg
      else if m.timestamp < data.lastUpdate then reg
      else
        Registry.store reg m.imageId
          { data with
              object := applyRelativeTransform slerpFn ctx.sandboxRoot
                ctx.interpolationFactor data.object m.relativePosition
                m.relativeRotation
              lastUpdate := m.timestamp } := by
  unfold onReceiveTransform
  rw [hx]

theorem onReceiveTransform_eq_none (slerpFn : SlerpFn) (ctx : SyncContext)
    (reg : Registry) (m : TrackedImageTransformMessage)
    (hx : Registry.find? reg m.imageId = none) :
    onReceiveTransform slerpFn ctx reg m = reg := by
  unfold onReceiveTransform
  rw [hx]

theorem onReceiveDespawn_eq_some (reg : Registry)
    (m : TrackedImageDespawnMessage) (data : SyncedTrackedObject)
    (hx : Registry.find? reg m.imageId = some data) :
    onReceiveDespawn reg m =
      if m.senderId ≠ data.ownerId then reg
      else removeTrackedObject reg m.imageId := by
  unfold onReceiveDespawn
  rw [hx]

theorem onReceiveDespawn_eq_none (reg : Registry)
    (m : TrackedImageDespawnMessage)
    (hx : Registry.find? reg m.imageId = none) :
    onReceiveDespawn reg m = reg := by
  unfold onReceiveDespawn
  rw [hx]

theorem onReceiveOwnership_eq_request (ctx : SyncContext) (reg : Registry)
    (m : TrackedImageOwnershipMessage) (data : SyncedTrackedObject)
    (hx : Registry.find? reg m.imageId = some data)
    (hact : m.action = OwnershipAction.request) :
    onReceiveOwnership ctx reg m =
      if ¬data.isLocallyTracked ∨ data.ownerId ≠ ctx.localId then
        Registry.store reg m.imageId
          { data with
              ownerId := m.senderId
              isLocallyTracked := m.senderId == ctx.localId }
      else reg := by
  unfold onReceiveOwnership
  rw [hx, hact]

theorem onReceiveOwnership_eq_release (ctx : SyncContext) (reg : Registry)
    (m : TrackedImageOwnershipMessage) (data : SyncedTrackedObject)
    (hx : Registry.find? reg m.imageId = some data)
    (hact : m.action = OwnershipAction.release) :
    onReceiveOwnership ctx reg m =
      if data.ownerId = m.senderId then
        Registry.store reg m.imageId { data with ownerId := "" }
      else reg := by
  unfold onReceiveOwnership
  rw [hx, hact]

theorem onReceiveOwnership_eq_none (ctx : SyncContext) (reg : Registry)
    (m : TrackedImageOwnershipMessage)
    (hx : Registry.find? reg m.imageId = none) :
    onReceiveOwnership ctx reg m = reg := by
  unfold onReceiveOwnership
  rw [hx]

-- ===========================================================================
-- C3: the locally-driven ownership invariant
-- ===========================================================================

/-- The weakened locally-driven invariant that the handlers actually
preserve: every locally driven record is owned by the local peer or has
had its owner cleared to the empty string by an ownership release. -/
def LocalDriveInvariant (ctx : SyncContext) (reg : Registry) : Prop :=
  ∀ kv ∈ reg, kv.2.isLocallyTracked →
    kv.2.ownerId = ctx.localId ∨ kv.2.ownerId = ""

theorem removeTrackedObject_mem (reg : Registry) (k : String)
    (kv : String × SyncedTrackedObject) (h : kv ∈ removeTrackedObject reg k) :
    kv ∈ reg := by
  unfold removeTrackedObject at h
  cases hf : Registry.find? reg k with
  | none => rwa [hf] at h
  | some w =>
      rw [hf] at h
      exact Registry.mem_removeKey reg k kv h

theorem inv_store_fresh (ctx : SyncContext) (reg : Registry) (id : String)
    (v : SyncedTrackedObject) (h : LocalDriveInvariant ctx reg)
    (hv : v.isLocallyTracked → v.ownerId = ctx.localId ∨ v.ownerId = "") :
    LocalDriveInvariant ctx (Registry.store reg id v) := by
  intro kv hkv hlt
  rcases Registry.mem_store reg id v kv hkv with hm | hm
  · exact h kv hm hlt
  · subst hm
    exact hv hlt

theorem inv_createTrackedObject (slerpFn : SlerpFn) (ctx : SyncContext)
    (reg : Registry) (m : TrackedImageSpawnMessage) (load : Option HostObject)
    (h : LocalDriveInvariant ctx reg) :
    LocalDriveInvariant ctx (createTrackedObject slerpFn ctx reg m load) := by
  rcases createTrackedObject_cases slerpFn ctx reg m load with
    hc | ⟨v, hown, _, _, hloc, hc⟩
  · rwa [hc]
  · rw [hc]
    refine inv_store_fresh ctx reg m.imageId v h ?_
    intro hlt
    rw [hloc] at hlt
    exact Or.inl (hown.trans (by simpa using hlt))

theorem inv_onReceiveSpawn (slerpFn : SlerpFn) (ctx : SyncContext)
    (reg : Registry) (m : TrackedImageSpawnMessage) (load : Option HostObject)
    (h : LocalDriveInvariant ctx reg) :
    LocalDriveInvariant ctx (onReceiveSpawn slerpFn ctx reg m load) := by
  cases hx : Registry.find? reg m.imageId with
  | some existingData =>
      rw [onReceiveSpawn_eq_some slerpFn ctx reg m load existingData hx]
      split_ifs with h1
      · refine inv_store_fresh ctx reg m.imageId _ h ?_
        intro hlt
        exact Or.inl (by simpa using hlt)
      · exact h
  | none =>
      rw [onReceiveSpawn_eq_none slerpFn ctx reg m load hx]
      exact inv_createTrackedObject slerpFn ctx reg m load h

theorem inv_onReceiveTransform (slerpFn : SlerpFn) (ctx : SyncContext)
    (reg : Registry) (m : TrackedImageTransformMessage)
    (h : LocalDriveInvariant ctx reg) :
    LocalDriveInvariant ctx (onReceiveTransform slerpFn ctx reg m) := by
  cases hx : Registry.find? reg m.imageId with
  | none => rw [onReceiveTransform_eq_none slerpFn ctx reg m hx]; exact h
  | some data =>
      rw [onReceiveTransform_eq_some slerpFn ctx reg m data hx]
      split_ifs with h1 h2 h3
      · exact h
      · exact h
      · exact h
      · refine inv_store_fresh ctx reg m.imageId _ h ?_
        intro hlt
        exact h (m.imageId, data) (Registry.find?_some_mem reg m.imageId data hx) hlt

theorem inv_onReceiveDespawn (reg : Registry) (m : TrackedImageDespawnMessage)
    (ctx : SyncContext) (h : LocalDriveInvariant ctx reg) :
    LocalDriveInvariant ctx (onReceiveDespawn reg m) := by
  cases hx : Registry.find? reg m.imageId with
  | none => rw [onReceiveDespawn_eq_none reg m hx]; exact h
  | some data =>
      rw [onReceiveDespawn_eq_some reg m data hx]
      split_ifs with h1
      · exact h
      · intro kv hkv hlt
        exact h kv (removeTrackedObject_mem reg m.imageId kv hkv) hlt

theorem inv_onReceiveOwnership (ctx : SyncContext) (reg : Registry)
    (m : TrackedImageOwnershipMessage) (h : LocalDriveInvariant ctx reg) :
    LocalDriveInvariant ctx (onReceiveOwnership ctx reg m) := by
  cases hx : Registry.find? reg m.imageId with
  | none => rw [onReceiveOwnership_eq_none ctx reg m hx]; exact h
  | some data =>
      cases hact : m.action with
      | request =>
          rw [onReceiveOwnership_eq_request ctx reg m data hx hact]
          split_ifs with h1
          · refine inv_store_fresh ctx reg m.imageId _ h ?_
            intro hlt
            exact Or.inl (by simpa using hlt)
          · exact h
      | release =>
          rw [onReceiveOwnership_eq_release ctx reg m data hx hact]
          split_ifs with h1
          · refine inv_store_fresh ctx reg m.imageId _ h ?_
            intro hlt
            exact Or.inr rfl
          · exact h

theorem inv_onReceiveStateResponse (slerpFn : SlerpFn) (ctx : SyncContext)
    (reg : Registry) (m : StateResponseMessage) (load : Option HostObject)
    (h : LocalDriveInvariant ctx reg) :
    LocalDriveInvariant ctx (onReceiveStateResponse slerpFn ctx reg m load) := by
  unfold onReceiveStateResponse
  split_ifs with h1 h2
  · exact h
  · exact h
  · exact inv_createTrackedObject slerpFn ctx reg _ load h

theorem foldl_step_mem {α : Type}
    (g : (Registry × List SentMessage) → α → (Registry × List SentMessage))
    (hg : ∀ acc x kv, kv ∈ (g acc x).1 → kv ∈ acc.1)
    (entries : List α) :
    ∀ acc kv, kv ∈ (entries.foldl g acc).1 → kv ∈ acc.1 := by
  induction entries with
  | nil => intro acc kv h; exact h
  | cons x t ih => intro acc kv h; exact hg _ _ _ (ih _ _ h)

theorem checkForLostTracking_mem (ctx : SyncContext) (reg : Registry)
    (ids : List String) (now : ℤ) (kv : String × SyncedTrackedObject)
    (h : kv ∈ (checkForLostTracking ctx reg ids now).1) : kv ∈ reg := by
  unfold checkForLostTracking at h
  refine foldl_step_mem _ ?_ reg (reg, []) kv h
  intro acc x kv2 h2
  by_cases hc : x.2.isLocallyTracked ∧ ¬ids.contains x.1
  · rw [if_pos hc] at h2
    exact removeTrackedObject_mem acc.1 x.1 kv2 h2
  · rwa [if_neg hc] at h2

theorem inv_onImageTrackingUpdate (ctx : SyncContext) (st : SyncState)
    (images : List TrackedImage) (now : ℤ)
    (h : LocalDriveInvariant ctx st.syncedObjects) :
    LocalDriveInvariant ctx
      (onImageTrackingUpdate ctx st images now).1.syncedObjects := by
  unfold onImageTrackingUpdate
  by_cases h1 : canSync ctx
  · rw [if_neg (not_not_intro h1)]
    by_cases h2 : images.isEmpty
    · rw [if_pos h2]
      exact h
    · rw [if_neg h2]
      intro kv hkv hlt
      exact h kv
        (checkForLostTracking_mem ctx st.syncedObjects
          (images.map getImageId) now kv hkv) hlt
  · rw [if_pos h1]
    exact h

theorem inv_applyOp (slerpFn : SlerpFn) (ctx : SyncContext) (st : SyncState)
    (op : SyncOp) (h : LocalDriveInvariant ctx st.syncedObjects) :
    LocalDriveInvariant ctx (applyOp slerpFn ctx st op).syncedObjects := by
  cases op with
  | recvSpawn m load => exact inv_onReceiveSpawn slerpFn ctx st.syncedObjects m load h
  | recvTransform m => exact inv_onReceiveTransform slerpFn ctx st.syncedObjects m h
  | recvDespawn m => exact inv_onReceiveDespawn st.syncedObjects m ctx h
  | recvOwnership m => exact inv_onReceiveOwnership ctx st.syncedObjects m h
  | recvStateResponse m load =>
      exact inv_onReceiveStateResponse slerpFn ctx st.syncedObjects m load h
  | userLeft uid =>
      intro kv hkv hlt
      exact h kv (List.mem_filter.mp hkv).1 hlt
  | tracking images now => exact inv_onImageTrackingUpdate ctx st images now h

/-- C3 (amended): from the empty registry, every sequence of handler
invocations preserves the weakened invariant — a locally driven record
has `ownerId = localPeerId` or `ownerId = ""`.  The unweakened claim
fails: the ownership-release handler clears `ownerId` while leaving
`isLocallyTracked` set (see the counterexample). -/
theorem C3_invariant_weakened (slerpFn : SlerpFn) (ctx : SyncContext)
    (ops : List SyncOp) :
    ∀ kv ∈ (runOps slerpFn ctx SyncState.initial ops).syncedObjects,
      kv.2.isLocallyTracked →
        kv.2.ownerId = ctx.localId ∨ kv.2.ownerId = "" := by
  have main : ∀ (ops2 : List SyncOp) (st : SyncState),
      LocalDriveInvariant ctx st.syncedObjects →
      LocalDriveInvariant ctx (runOps slerpFn ctx st ops2).syncedObjects := by
    intro ops2
    induction ops2 with
    | nil => intro st h; exact h
    | cons op t ih => intro st h; exact ih _ (inv_applyOp slerpFn ctx st op h)
  exact main ops SyncState.initial (fun kv hkv => absurd hkv (List.not_mem_nil kv))

/-- The spawn echo of the local peer, creating a locally driven record. -/
def c3Spawn : TrackedImageSpawnMessage :=
  { senderId := "peer-A"
    imageId := "tracked_image_1"
    assetIndex := 0
    relativePosition := ⟨0, 0, 0⟩
    relativeRotation := ⟨0, 0, 0, 1⟩
    timestamp := 100 }

/-- A delayed ownership release from the local peer itself. -/
def c3Release : TrackedImageOwnershipMessage :=
  { senderId := "peer-A"
    imageId := "tracked_image_1"
    action := OwnershipAction.release
    timestamp := 200 }

/-- The host instance the load oracle returns for the spawn. -/
def c3Obj : HostObject :=
  { handle := 0
    position := ⟨0, 0, 0⟩
    quaternion := ⟨0, 0, 0, 1⟩
    parentIsSandboxRoot := false }

/-- Counterexample to C3 as stated: starting from the empty registry, the
local peer's own spawn echo followed by its own (stale) ownership release
yields a reachable state whose record has `isLocallyDriven = true` but
`ownerId = "" ≠ localPeerId` — the release handler does not preserve the
claimed invariant. -/
theorem C3_invariant_counterexample :
    (Registry.find?
        (runOps wSlerp wCtx SyncState.initial
          [SyncOp.recvSpawn c3Spawn (some c3Obj),
           SyncOp.recvOwnership c3Release]).syncedObjects
        "tracked_image_1").map
      (fun r => (r.isLocallyTracked, r.ownerId)) = some (true, "") ∧
    ¬wCtx.localId = "" := by
  constructor
  · rfl
  · decide

/-- The record created by the spawn echo alone. -/
def c3Rec : SyncedTrackedObject :=
  { object := c3Obj
    ownerId := "peer-A"
    assetIndex := 0
    lastUpdate := 100
    isLocallyTracked := true }

/-- Witness for the amended C3 invariant at a concrete run. -/
theorem C3_invariant_weakened_witness :
    c3Rec.ownerId = wCtx.localId ∨ c3Rec.ownerId = "" :=
  C3_invariant_weakened wSlerp wCtx
    [SyncOp.recvSpawn c3Spawn (some c3Obj)]
    ("tracked_image_1", c3Rec) (by decide) (by decide)

-- ===========================================================================
-- C9: detection of an unseen anchor
-- ===========================================================================

theorem onImageTrackingUpdate_sends (ctx : SyncContext) (st : SyncState)
    (images : List TrackedImage) (now : ℤ) (hcan : canSync ctx = true)
    (hne : images.isEmpty = false) :
    (onImageTrackingUpdate ctx st images now).2 =
      (images.map (processImage ctx st.syncedObjects
        (decide (ctx.updateInterval ≤ now - st.lastUpdateTime)) now)).flatten
      ++ (checkForLostTracking ctx st.syncedObjects
            (images.map getImageId) now).2 := by
  unfold onImageTrackingUpdate
  rw [if_neg (not_not_intro hcan), if_neg (by simp [hne])]

theorem onImageTrackingUpdate_reg (ctx : SyncContext) (st : SyncState)
    (images : List TrackedImage) (now : ℤ) (hcan : canSync ctx = true)
    (hne : images.isEmpty = false) :
    (onImageTrackingUpdate ctx st images now).1.syncedObjects =
      (checkForLostTracking ctx st.syncedObjects
        (images.map getImageId) now).1 := by
  unfold onImageTrackingUpdate
  rw [if_neg (not_not_intro hcan), if_neg (by simp [hne])]

theorem processImage_new_id (ctx : SyncContext) (reg : Registry) (b : Bool)
    (now : ℤ) (image : TrackedImage) (rel : Vector3 × Quaternion)
    (hrel : calculateRelativeTransform ctx.sandboxRoot image.worldPosition
      image.worldQuaternion = some rel)
    (hnew : Registry.find? reg (getImageId image) = none) :
    processImage ctx reg b now image =
      [SentMessage.spawn
        (sendSpawnMessage ctx (getImageId image) (getAssetIndex image) rel now)] := by
  unfold processImage
  rw [hrel, hnew]

/-- C9 (amended): when the detection handler sees an anchor whose id is
not registered while `canSync()` holds (and a relative transform is
computable), it emits a Spawn from the local peer — but the handler
itself leaves the registry without a record for that id; the record
appears, with `ownerId = localPeerId` and `isLocallyDriven = true`, only
once the peer processes its own Spawn message back and the asset load
succeeds. -/
theorem C9_spawn_emitted_owned_on_echo (slerpFn : SlerpFn) (ctx : SyncContext)
    (st : SyncState) (images : List TrackedImage) (image : TrackedImage)
    (now : ℤ) (rel : Vector3 × Quaternion) (obj : HostObject)
    (hcan : canSync ctx = true)
    (hne : images.isEmpty = false)
    (hmem : image ∈ images)
    (hrel : calculateRelativeTransform ctx.sandboxRoot image.worldPosition
      image.worldQuaternion = some rel)
    (hnew : Registry.find? st.syncedObjects (getImageId image) = none)
    (hassigned : ctx.imageTrackingAssigned = true)
    (hasset : ctx.assetOk (getAssetIndex image) = true) :
    SentMessage.spawn
        (sendSpawnMessage ctx (getImageId image) (getAssetIndex image) rel now)
      ∈ (onImageTrackingUpdate ctx st images now).2 ∧
    Registry.find? (onImageTrackingUpdate ctx st images now).1.syncedObjects
        (getImageId image) = none ∧
    (Registry.find?
        (onReceiveSpawn slerpFn ctx
          (onImageTrackingUpdate ctx st images now).1.syncedObjects
          (sendSpawnMessage ctx (getImageId image) (getAssetIndex image) rel now)
          (some obj))
        (getImageId image)).map
      (fun r => (r.ownerId, r.isLocallyTracked)) = some (ctx.localId, true) := by
  have hreg2 := onImageTrackingUpdate_reg ctx st images now hcan hne
  have hnone2 : Registry.find?
      (onImageTrackingUpdate ctx st images now).1.syncedObjects
      (getImageId image) = none := by
    rw [hreg2]
    cases hz : Registry.find?
        (checkForLostTracking ctx st.syncedObjects
          (images.map getImageId) now).1 (getImageId image) with
    | none => rfl
    | some r2 =>
        have := checkForLostTracking_sub ctx st.syncedObjects
          (images.map getImageId) now (getImageId image) r2 hz
        rw [hnew] at this
        cases this
  refine ⟨?_, hnone2, ?_⟩
  · rw [onImageTrackingUpdate_sends ctx st images now hcan hne]
    apply List.mem_append_left
    refine List.mem_flatten.mpr ⟨_, List.mem_map_of_mem _ hmem, ?_⟩
    rw [processImage_new_id ctx st.syncedObjects _ now image rel hrel hnew]
    exact List.mem_singleton_self _
  · rw [onReceiveSpawn_eq_none slerpFn ctx _ _ (some obj) hnone2]
    unfold createTrackedObject
    simp only [sendSpawnMessage]
    rw [if_neg (not_not_intro hassigned), if_neg (not_not_intro hasset)]
    simp [Registry.find?_store_self]

/-- The identity anchor used by concrete detection fixtures. -/
def idAnchor : Anchor :=
  { matrixWorld := Matrix4.one, worldQuaternion := ⟨0, 0, 0, 1⟩ }

/-- A context whose sandbox root is assigned, so that `canSync` holds. -/
def c9Ctx : SyncContext := { wCtx with sandboxRoot := some idAnchor }

/-- A concrete detected image. -/
def c9Image : TrackedImage :=
  { index := 0, worldPosition := ⟨1, 0, 0⟩, worldQuaternion := ⟨0, 0, 0, 1⟩ }

/-- Counterexample to C9 as stated: with `canSync` true and an unseen
anchor, the detection handler emits the Spawn message but completes with
NO registry record for the id at all — the entity does not enter
`OwnedLocal` when the detection handling completes. -/
theorem c9RelativeEval :
    calculateRelativeTransform c9Ctx.sandboxRoot c9Image.worldPosition
      c9Image.worldQuaternion = some (⟨1, 0, 0⟩, ⟨0, 0, 0, 1⟩) := by
  norm_num [calculateRelativeTransform, c9Ctx, wCtx, idAnchor, c9Image,
    Matrix4.invert, Matrix4.det, det3, Matrix4.one, Matrix4.zero,
    Vector3.applyMatrix4, Quaternion.conjugate, Quaternion.mul]

theorem C9_counterexample :
    canSync c9Ctx = true ∧
    (onImageTrackingUpdate c9Ctx SyncState.initial [c9Image] 1000).2 =
      [SentMessage.spawn
        { senderId := "peer-A"
          imageId := "tracked_image_0"
          assetIndex := 0
          relativePosition := ⟨1, 0, 0⟩
          relativeRotation := ⟨0, 0, 0, 1⟩
          timestamp := 1000 }] ∧
    Registry.find?
      (onImageTrackingUpdate c9Ctx SyncState.initial [c9Image] 1000).1.syncedObjects
      "tracked_image_0" = none := by
  have hid : getImageId c9Image = "tracked_image_0" := by decide
  refine ⟨rfl, ?_, ?_⟩
  · rw [onImageTrackingUpdate_sends c9Ctx SyncState.initial [c9Image] 1000 rfl rfl]
    rw [List.map_singleton,
      processImage_new_id c9Ctx SyncState.initial.syncedObjects _ 1000 c9Image
        (⟨1, 0, 0⟩, ⟨0, 0, 0, 1⟩) c9RelativeEval rfl]
    simp [sendSpawnMessage, hid, checkForLostTracking, SyncState.initial,
      c9Ctx, wCtx, getAssetIndex, c9Image]
    decide
  · rw [onImageTrackingUpdate_reg c9Ctx SyncState.initial [c9Image] 1000 rfl rfl]
    rfl

/-- Witness for the amended C9 at the concrete detection fixture. -/
theorem C9_spawn_emitted_owned_on_echo_witness :
    SentMessage.spawn
        (sendSpawnMessage c9Ctx (getImageId c9Image) (getAssetIndex c9Image)
          (⟨1, 0, 0⟩, ⟨0, 0, 0, 1⟩) 1000)
      ∈ (onImageTrackingUpdate c9Ctx SyncState.initial [c9Image] 1000).2 ∧
    Registry.find?
        (onImageTrackingUpdate c9Ctx SyncState.initial [c9Image] 1000).1.syncedObjects
        (getImageId c9Image) = none ∧
    (Registry.find?
        (onReceiveSpawn wSlerp c9Ctx
          (onImageTrackingUpdate c9Ctx SyncState.initial [c9Image] 1000).1.syncedObjects
          (sendSpawnMessage c9Ctx (getImageId c9Image) (getAssetIndex c9Image)
            (⟨1, 0, 0⟩, ⟨0, 0, 0, 1⟩) 1000)
          (some c3Obj))
        (getImageId c9Image)).map
      (fun r => (r.ownerId, r.isLocallyTracked)) = some (c9Ctx.localId, true) :=
  C9_spawn_emitted_owned_on_echo wSlerp c9Ctx SyncState.initial [c9Image]
    c9Image 1000 (⟨1, 0, 0⟩, ⟨0, 0, 0, 1⟩) c3Obj rfl rfl
    (List.mem_singleton_self c9Image) c9RelativeEval rfl rfl rfl

-- ===========================================================================
-- C8: teardown ordering
-- ===========================================================================

theorem mem_onDisableUnsubActions (ctx : SyncContext) (a : DisableAction)
    (ha : a ∈ onDisableUnsubActions ctx) : a.isUnsubscribe = true := by
  unfold onDisableUnsubActions at ha
  split_ifs at ha
  · simp at ha
    rcases ha with rfl | rfl | rfl | rfl | rfl | rfl | rfl | rfl | rfl <;> rfl
  · simp at ha
    rcases ha with rfl | rfl | rfl | rfl | rfl | rfl | rfl | rfl <;> rfl

theorem mem_despawnAllLocallyTracked (reg : Registry) (a : DisableAction)
    (ha : a ∈ despawnAllLocallyTracked reg) :
    ∃ id, a = DisableAction.sendDespawn id := by
  unfold despawnAllLocallyTracked at ha
  rcases List.mem_map.mp ha with ⟨kv, _, rfl⟩
  exact ⟨kv.1, rfl⟩

theorem unsub_not_sendDespawn (a : DisableAction)
    (h : a.isUnsubscribe = true) : a.isSendDespawn = false := by
  cases a <;> simp_all [DisableAction.isUnsubscribe, DisableAction.isSendDespawn]

/-- C8 (amended): `onDisable` performs no registry release at all, every
unsubscription strictly precedes every Despawn send in its trace, and a
Despawn is sent for every locally driven record.  The claimed order —
despawns first, registry released, handlers unsubscribed last — is
inverted in the code (see the counterexample). -/
theorem C8_onDisable_order (ctx : SyncContext) (st : SyncState) :
    (∀ id, DisableAction.releaseEntry id ∉ onDisableTrace ctx st) ∧
    (∀ (i j : ℕ) (a b : DisableAction),
      (onDisableTrace ctx st).get? i = some a → a.isUnsubscribe = true →
      (onDisableTrace ctx st).get? j = some b → b.isSendDespawn = true →
      i < j) ∧
    (∀ kv ∈ st.syncedObjects, kv.2.isLocallyTracked →
      DisableAction.sendDespawn kv.1 ∈ onDisableTrace ctx st) := by
  refine ⟨?_, ?_, ?_⟩
  · intro id hmem
    rcases List.mem_append.mp hmem with hmem | hmem
    · have := mem_onDisableUnsubActions ctx _ hmem
      simp [DisableAction.isUnsubscribe] at this
    · rcases mem_despawnAllLocallyTracked st.syncedObjects _ hmem with ⟨id2, he⟩
      cases he
  · intro i j a b hga hua hgb hdb
    unfold onDisableTrace at hga hgb
    have hjlen : ¬j < (onDisableUnsubActions ctx).length := by
      intro hjp
      rw [List.get?_append hjp] at hgb
      have hbmem : b ∈ onDisableUnsubActions ctx := List.get?_mem hgb
      have := unsub_not_sendDespawn b (mem_onDisableUnsubActions ctx b hbmem)
      rw [hdb] at this
      cases this
    have hilen : i < (onDisableUnsubActions ctx).length := by
      by_contra hip
      rw [List.get?_append_right (le_of_not_lt hip)] at hga
      have hamem : a ∈ despawnAllLocallyTracked st.syncedObjects :=
        List.get?_mem hga
      rcases mem_despawnAllLocallyTracked st.syncedObjects a hamem with ⟨id2, he⟩
      subst he
      cases hua
    omega
  · intro kv hkv hlt
    refine List.mem_append_right _ ?_
    unfold despawnAllLocallyTracked
    exact List.mem_map_of_mem _ (List.mem_filter.mpr ⟨hkv, hlt⟩)

/-- A record that is locally driven, for the teardown fixtures. -/
def c8Data : SyncedTrackedObject :=
  { object := wObj
    ownerId := "peer-A"
    assetIndex := 0
    lastUpdate := 100
    isLocallyTracked := true }

/-- A state with one locally driven entity. -/
def c8St : SyncState :=
  { syncedObjects := [("tracked_image_0", c8Data)], lastUpdateTime := 0 }

/-- Counterexample to C8 as stated: in the concrete `onDisable` trace the
very first action already unsubscribes (index 0), the Despawn send comes
only at index 9, and no registry entry is released at all — the claimed
order (despawn sends first, then releases, unsubscription last) does not
hold. -/
theorem C8_counterexample :
    (onDisableTrace wCtx c8St).get? 0 =
      some DisableAction.unsubscribeImageTracking ∧
    (onDisableTrace wCtx c8St).get? 9 =
      some (DisableAction.sendDespawn "tracked_image_0") ∧
    DisableAction.releaseEntry "tracked_image_0" ∉ onDisableTrace wCtx c8St := by
  decide

/-- Witness for the amended C8 at the concrete teardown fixture. -/
theorem C8_onDisable_order_witness :
    DisableAction.sendDespawn "tracked_image_0" ∈ onDisableTrace wCtx c8St :=
  (C8_onDisable_order wCtx c8St).2.2 ("tracked_image_0", c8Data)
    (by decide) (by decide)

-- ===========================================================================
-- C6: the pending-load double-instantiation race
-- ===========================================================================

/-- First spawn for the id, arriving while nothing is registered. -/
def c6M1 : TrackedImageSpawnMessage :=
  { senderId := "peer-B"
    imageId := "tracked_image_0"
    assetIndex := 0
    relativePosition := ⟨0, 0, 0⟩
    relativeRotation := ⟨0, 0, 0, 1⟩
    timestamp := 100 }

/-- Second spawn for the same id, arriving while the first load is still
pending. -/
def c6M2 : TrackedImageSpawnMessage :=
  { c6M1 with senderId := "peer-C", timestamp := 120 }

/-- The schedule that exhibits the race: both spawns arrive before either
load completes, then both loads complete. -/
def c6Final : AsyncState :=
  runAsyncOps wSlerp wCtx AsyncState.initial
    [AsyncOp.spawnArrives c6M1, AsyncOp.spawnArrives c6M2,
     AsyncOp.loadCompletes 0, AsyncOp.loadCompletes 0]

/-- C6 fails on the code: with the `await loadAssetAsync()` suspension
made explicit, a second Spawn for the same id arriving while the first
load is pending passes the registry check (nothing is registered yet) and
starts a second create; both loads complete, TWO host-scene objects are
instantiated for the one imageId, the second `syncedObjects.set`
overwrites the record, and the first instance (handle 0) is left
registered nowhere and never destroyed. -/
theorem C6_double_instantiation :
    instancesFor c6Final "tracked_image_0" = 2 ∧
    (Registry.find? c6Final.syncedObjects "tracked_image_0").map
      (fun r => r.object.handle) = some 1 ∧
    ("tracked_image_0", 0) ∈ c6Final.instantiated := by
  decide

-- ===========================================================================
-- C7: coordinate round-trip
-- ===========================================================================

theorem Quaternion.mulAssoc (a b c : Quaternion) :
    (a.mul b).mul c = a.mul (b.mul c) := by
  ext <;> simp [Quaternion.mul] <;> ring

theorem Quaternion.mul_conjugate_self (q : Quaternion) :
    q.mul q.conjugate = ⟨0, 0, 0, q.normSq⟩ := by
  ext <;> simp [Quaternion.mul, Quaternion.conjugate, Quaternion.normSq] <;> ring

theorem Quaternion.one_mul_left (r : Quaternion) :
    Quaternion.mul ⟨0, 0, 0, 1⟩ r = r := by
  ext <;> simp [Quaternion.mul]

theorem toWorldRotation_of_relative (a : Anchor) (w : Quaternion)
    (hunit : a.worldQuaternion.normSq = 1) :
    toWorldRotation a (a.worldQuaternion.conjugate.mul w) = w := by
  unfold toWorldRotation
  rw [← Quaternion.mulAssoc, Quaternion.mul_conjugate_self, hunit,
    Quaternion.one_mul_left]

theorem Matrix4.det_affine (m : Matrix4) (ha : m.IsAffine) :
    m.det = det3 m.n11 m.n12 m.n13 m.n21 m.n22 m.n23 m.n31 m.n32 m.n33 := by
  obtain ⟨h1, h2, h3, h4⟩ := ha
  unfold Matrix4.det det3
  rw [h1, h2, h3, h4]
  ring

theorem Matrix4.mul_affine (a b : Matrix4) (ha : a.IsAffine) (hb : b.IsAffine) :
    (a.mul b).IsAffine := by
  obtain ⟨ha1, ha2, ha3, ha4⟩ := ha
  obtain ⟨hb1, hb2, hb3, hb4⟩ := hb
  refine ⟨?_, ?_, ?_, ?_⟩ <;>
    simp [Matrix4.mul, ha1, ha2, ha3, ha4, hb1, hb2, hb3, hb4]

set_option maxHeartbeats 1000000 in
theorem Matrix4.mul_invert_self (m : Matrix4) (hdet : m.det ≠ 0) :
    m.mul m.invert = Matrix4.one := by
  unfold Matrix4.invert
  rw [if_neg hdet]
  ext <;>
    (simp only [Matrix4.mul, Matrix4.one, ← mul_div_assoc, div_add_div_same]
     rw [div_eq_iff hdet]
     unfold Matrix4.det det3
     ring)

theorem Matrix4.isAffine_invert (m : Matrix4) (hdet : m.det ≠ 0)
    (ha : m.IsAffine) : m.invert.IsAffine := by
  obtain ⟨h1, h2, h3, h4⟩ := ha
  unfold Matrix4.invert
  rw [if_neg hdet]
  refine ⟨?_, ?_, ?_, ?_⟩
  · show -det3 m.n21 m.n22 m.n23 m.n31 m.n32 m.n33 m.n41 m.n42 m.n43 / m.det = 0
    rw [h1, h2, h3]
    simp [det3]
  · show det3 m.n11 m.n12 m.n13 m.n31 m.n32 m.n33 m.n41 m.n42 m.n43 / m.det = 0
    rw [h1, h2, h3]
    simp [det3]
  · show -det3 m.n11 m.n12 m.n13 m.n21 m.n22 m.n23 m.n41 m.n42 m.n43 / m.det = 0
    rw [h1, h2, h3]
    simp [det3]
  · have hne : det3 m.n11 m.n12 m.n13 m.n21 m.n22 m.n23 m.n31 m.n32 m.n33 ≠ 0 := by
      rwa [Matrix4.det_affine m ⟨h1, h2, h3, h4⟩] at hdet
    show det3 m.n11 m.n12 m.n13 m.n21 m.n22 m.n23 m.n31 m.n32 m.n33 / m.det = 1
    rw [Matrix4.det_affine m ⟨h1, h2, h3, h4⟩, div_self hne]

theorem Vector3.applyMatrix4_affine (v : Vector3) (m : Matrix4)
    (ha : m.IsAffine) :
    v.applyMatrix4 m =
      ⟨m.n11 * v.x + m.n12 * v.y + m.n13 * v.z + m.n14,
       m.n21 * v.x + m.n22 * v.y + m.n23 * v.z + m.n24,
       m.n31 * v.x + m.n32 * v.y + m.n33 * v.z + m.n34⟩ := by
  obtain ⟨h1, h2, h3, h4⟩ := ha
  unfold Vector3.applyMatrix4
  simp [h1, h2, h3, h4]

theorem applyMatrix4_mul_affine (v : Vector3) (a b : Matrix4)
    (ha : a.IsAffine) (hb : b.IsAffine) :
    (v.applyMatrix4 b).applyMatrix4 a = v.applyMatrix4 (a.mul b) := by
  obtain ⟨hb1, hb2, hb3, hb4⟩ := hb
  rw [Vector3.applyMatrix4_affine v b ⟨hb1, hb2, hb3, hb4⟩,
      Vector3.applyMatrix4_affine _ a ha,
      Vector3.applyMatrix4_affine v (a.mul b)
        (Matrix4.mul_affine a b ha ⟨hb1, hb2, hb3, hb4⟩)]
  ext <;> simp [Matrix4.mul, hb1, hb2, hb3, hb4] <;> ring

theorem Vector3.applyMatrix4_one (v : Vector3) :
    v.applyMatrix4 Matrix4.one = v := by
  unfold Vector3.applyMatrix4 Matrix4.one
  ext <;> simp

/-- C7: converting a world pose to an anchor-relative pose with
`calculateRelativeTransform` and mapping it back through the anchor frame
with the `toWorldPosition`/`toWorldRotation` composition used on receipt
returns the original world pose exactly (over exact rational arithmetic),
for every anchor whose world matrix is affine and invertible and whose
world quaternion is unit — non-trivial rotations included. -/
theorem C7_roundtrip (a : Anchor) (wp : Vector3) (wq : Quaternion)
    (rel : Vector3 × Quaternion)
    (hcalc : calculateRelativeTransform (some a) wp wq = some rel)
    (haff : a.matrixWorld.IsAffine)
    (hdet : a.matrixWorld.det ≠ 0)
    (hunit : a.worldQuaternion.normSq = 1) :
    toWorldPosition a rel.1 = wp ∧ toWorldRotation a rel.2 = wq := by
  have hrel : (wp.applyMatrix4 a.matrixWorld.invert,
      a.worldQuaternion.conjugate.mul wq) = rel := by
    unfold calculateRelativeTransform at hcalc
    injection hcalc
  rw [← hrel]
  constructor
  · unfold toWorldPosition
    rw [applyMatrix4_mul_affine wp a.matrixWorld a.matrixWorld.invert haff
        (Matrix4.isAffine_invert a.matrixWorld hdet haff),
      Matrix4.mul_invert_self a.matrixWorld hdet,
      Vector3.applyMatrix4_one]
  · exact toWorldRotation_of_relative a wq hunit

/-- An anchor with a non-trivial rotation: its world matrix rotates 180
degrees about the z axis and translates by (1, 2, 3); its world
quaternion is the matching unit quaternion (0, 0, 1, 0). -/
def c7Anchor : Anchor :=
  { matrixWorld :=
      ⟨-1, 0, 0, 1,
        0, -1, 0, 2,
        0, 0, 1, 3,
        0, 0, 0, 1⟩
    worldQuaternion := ⟨0, 0, 1, 0⟩ }

/-- A concrete world position for the round-trip witness. -/
def c7Wp : Vector3 := ⟨4, 5, 6⟩

/-- A concrete world rotation for the round-trip witness. -/
def c7Wq : Quaternion := ⟨0, 1, 0, 0⟩

/-- Witness for C7 at the concrete non-trivially-rotated anchor. -/
theorem C7_roundtrip_witness :
    toWorldPosition c7Anchor
        (Vector3.applyMatrix4 c7Wp c7Anchor.matrixWorld.invert) = c7Wp ∧
    toWorldRotation c7Anchor
        (Quaternion.mul c7Anchor.worldQuaternion.conjugate c7Wq) = c7Wq :=
  C7_roundtrip c7Anchor c7Wp c7Wq
    (Vector3.applyMatrix4 c7Wp c7Anchor.matrixWorld.invert,
      Quaternion.mul c7Anchor.worldQuaternion.conjugate c7Wq)
    rfl ⟨rfl, rfl, rfl, rfl⟩
    (by norm_num [Matrix4.det, det3, c7Anchor])
    (by norm_num [Quaternion.normSq, c7Anchor])

-- ===========================================================================
-- C5: reorder-independence of transform batches
-- ===========================================================================

/-- Whether `onReceiveTransform` applies (rather than drops) this message
against the current registry — exactly the guard sequence of the
handler. -/
def transformApplied (ctx : SyncContext) (reg : Registry)
    (m : TrackedImageTransformMessage) : Bool :=
  match Registry.find? reg m.imageId with
  | none => false
  | some data =>
      if m.senderId ≠ data.ownerId then false
      else if m.senderId = ctx.localId ∧ data.isLocallyTracked then false
      else if m.timestamp < data.lastUpdate then false
      else true

theorem transformApplied_eq_some (ctx : SyncContext) (reg : Registry)
    (m : TrackedImageTransformMessage) (data : SyncedTrackedObject)
    (hx : Registry.find? reg m.imageId = some data) :
    transformApplied ctx reg m =
      if m.senderId ≠ data.ownerId then false
      else if m.senderId = ctx.localId ∧ data.isLocallyTracked then false
      else if m.timestamp < data.lastUpdate then false
      else true := by
  unfold transformApplied
  rw [hx]

/-- One step of the instrumented fold: deliver the message and record it
when it was applied. -/
def transformStep (slerpFn : SlerpFn) (ctx : SyncContext)
    (acc : Registry × List TrackedImageTransformMessage)
    (m : TrackedImageTransformMessage) :
    Registry × List TrackedImageTransformMessage :=
  (onReceiveTransform slerpFn ctx acc.1 m,
   if transformApplied ctx acc.1 m then acc.2 ++ [m] else acc.2)

/-- Deliver a batch of transform messages in order through
`onReceiveTransform`, collecting the applied ones. -/
def transformTrace (slerpFn : SlerpFn) (ctx : SyncContext) (reg : Registry)
    (msgs : List TrackedImageTransformMessage) :
    Registry × List TrackedImageTransformMessage :=
  msgs.foldl (transformStep slerpFn ctx) (reg, [])

theorem transformTrace_acc (slerpFn : SlerpFn) (ctx : SyncContext) :
    ∀ (msgs : List TrackedImageTransformMessage) (reg : Registry)
      (acc : List TrackedImageTransformMessage),
      msgs.foldl (transformStep slerpFn ctx) (reg, acc) =
        ((msgs.foldl (transformStep slerpFn ctx) (reg, [])).1,
         acc ++ (msgs.foldl (transformStep slerpFn ctx) (reg, [])).2) := by
  intro msgs
  induction msgs with
  | nil => intro reg acc; simp
  | cons m t ih =>
      intro reg acc
      rw [List.foldl_cons, List.foldl_cons]
      simp only [transformStep, List.nil_append]
      rw [ih (onReceiveTransform slerpFn ctx reg m)
            (if transformApplied ctx reg m then acc ++ [m] else acc),
          ih (onReceiveTransform slerpFn ctx reg m)
            (if transformApplied ctx reg m then [m] else [])]
      by_cases hc : transformApplied ctx reg m
      · simp [hc]
      · simp [hc]

theorem transformTrace_cons (slerpFn : SlerpFn) (ctx : SyncContext)
    (reg : Registry) (m : TrackedImageTransformMessage)
    (rest : List TrackedImageTransformMessage) :
    transformTrace slerpFn ctx reg (m :: rest) =
      ((transformTrace slerpFn ctx (onReceiveTransform slerpFn ctx reg m) rest).1,
       (if transformApplied ctx reg m then [m] else []) ++
         (transformTrace slerpFn ctx (onReceiveTransform slerpFn ctx reg m) rest).2) := by
  unfold transformTrace
  rw [List.foldl_cons]
  simp only [transformStep, List.nil_append]
  rw [transformTrace_acc slerpFn ctx rest (onReceiveTransform slerpFn ctx reg m)
        (if transformApplied ctx reg m then [m] else [])]

/-- Guard characterization for one owner-matching transform message
against a record with fields `obj / O / A / lu / T`. -/
theorem transformStep_char (slerpFn : SlerpFn) (ctx : SyncContext)
    (reg : Registry) (m : TrackedImageTransformMessage) (obj : HostObject)
    (O : String) (A : ℤ) (lu : ℤ) (T : Bool)
    (hreg : Registry.find? reg m.imageId = some ⟨obj, O, A, lu, T⟩)
    (hs : m.senderId = O)
    (hnotself : ¬(O = ctx.localId ∧ T = true)) :
    (lu ≤ m.timestamp →
      onReceiveTransform slerpFn ctx reg m =
        Registry.store reg m.imageId
          ⟨applyRelativeTransform slerpFn ctx.sandboxRoot
              ctx.interpolationFactor obj m.relativePosition m.relativeRotation,
            O, A, m.timestamp, T⟩ ∧
      transformApplied ctx reg m = true) ∧
    (m.timestamp < lu →
      onReceiveTransform slerpFn ctx reg m = reg ∧
      transformApplied ctx reg m = false) := by
  have hg1 : ¬¬(m.senderId = O) := not_not_intro hs
  have hg2 : ¬(m.senderId = ctx.localId ∧ T = true) := by
    intro hc
    exact hnotself ⟨by rw [← hs]; exact hc.1, hc.2⟩
  constructor
  · intro hfresh
    constructor
    · rw [onReceiveTransform_eq_some slerpFn ctx reg m _ hreg, if_neg hg1,
        if_neg hg2, if_neg (not_lt.mpr hfresh)]
    · rw [transformApplied_eq_some ctx reg m _ hreg, if_neg hg1, if_neg hg2,
        if_neg (not_lt.mpr hfresh)]
  · intro hstale
    constructor
    · rw [onReceiveTransform_eq_some slerpFn ctx reg m _ hreg, if_neg hg1,
        if_neg hg2, if_pos hstale]
    · rw [transformApplied_eq_some ctx reg m _ hreg, if_neg hg1, if_neg hg2,
        if_pos hstale]

/-- A batch every message of which is stale leaves the registry unchanged
and applies nothing. -/
theorem transformTrace_stale (slerpFn : SlerpFn) (ctx : SyncContext)
    (id O : String) (A : ℤ) (T : Bool)
    (hnotself : ¬(O = ctx.localId ∧ T = true)) :
    ∀ (msgs : List TrackedImageTransformMessage) (reg : Registry)
      (obj : HostObject) (lu : ℤ),
      Registry.find? reg id = some ⟨obj, O, A, lu, T⟩ →
      (∀ m ∈ msgs, m.imageId = id) →
      (∀ m ∈ msgs, m.senderId = O) →
      (∀ m ∈ msgs, m.timestamp < lu) →
      transformTrace slerpFn ctx reg msgs = (reg, []) := by
  intro msgs
  induction msgs with
  | nil => intro reg obj lu _ _ _ _; rfl
  | cons m t ih =>
      intro reg obj lu hreg hid hs hstale
      have hregm : Registry.find? reg m.imageId = some ⟨obj, O, A, lu, T⟩ := by
        rw [hid m (List.mem_cons_self m t)]; exact hreg
      obtain ⟨hhandler, happlied⟩ :=
        (transformStep_char slerpFn ctx reg m obj O A lu T hregm
          (hs m (List.mem_cons_self m t)) hnotself).2
          (hstale m (List.mem_cons_self m t))
      rw [transformTrace_cons, hhandler, happlied,
        ih reg obj lu hreg
          (fun m2 hm2 => hid m2 (List.mem_cons_of_mem m hm2))
          (fun m2 hm2 => hs m2 (List.mem_cons_of_mem m hm2))
          (fun m2 hm2 => hstale m2 (List.mem_cons_of_mem m hm2))]
      simp

/-- Main induction for C5: applied messages are never stale relative to
the starting timestamp, and the unique maximal fresh message is always
the last one applied. -/
theorem transformTrace_main (slerpFn : SlerpFn) (ctx : SyncContext)
    (id O : String) (A : ℤ) (T : Bool)
    (hnotself : ¬(O = ctx.localId ∧ T = true)) :
    ∀ (msgs : List TrackedImageTransformMessage) (reg : Registry)
      (obj : HostObject) (lu : ℤ),
      Registry.find? reg id = some ⟨obj, O, A, lu, T⟩ →
      (∀ m ∈ msgs, m.imageId = id) →
      (∀ m ∈ msgs, m.senderId = O) →
      (∀ m ∈ (transformTrace slerpFn ctx reg msgs).2, lu ≤ m.timestamp) ∧
      (∀ mmax, mmax ∈ msgs → lu ≤ mmax.timestamp →
        (∀ m ∈ msgs, m.timestamp ≤ mmax.timestamp) →
        (msgs.map (fun m2 => m2.timestamp)).Nodup →
        ((transformTrace slerpFn ctx reg msgs).2).getLast? = some mmax) := by
  intro msgs
  induction msgs with
  | nil =>
      intro reg obj lu _ _ _
      exact ⟨fun m hm => absurd hm (List.not_mem_nil m),
             fun mmax hm => absurd hm (List.not_mem_nil mmax)⟩
  | cons m t ih =>
      intro reg obj lu hreg hid hs
      have hmid : m.imageId = id := hid m (List.mem_cons_self m t)
      have hms : m.senderId = O := hs m (List.mem_cons_self m t)
      have hregm : Registry.find? reg m.imageId = some ⟨obj, O, A, lu, T⟩ := by
        rw [hmid]; exact hreg
      have hidt : ∀ m2 ∈ t, m2.imageId = id :=
        fun m2 hm2 => hid m2 (List.mem_cons_of_mem m hm2)
      have hst : ∀ m2 ∈ t, m2.senderId = O :=
        fun m2 hm2 => hs m2 (List.mem_cons_of_mem m hm2)
      by_cases hstale : m.timestamp < lu
      · obtain ⟨hhandler, happlied⟩ :=
          (transformStep_char slerpFn ctx reg m obj O A lu T hregm hms
            hnotself).2 hstale
        have hrec := ih reg obj lu hreg hidt hst
        rw [transformTrace_cons, hhandler, happlied]
        constructor
        · intro m2 hm2
          simp only [Bool.false_eq_true, if_false, List.nil_append] at hm2
          exact hrec.1 m2 hm2
        · intro mmax hmm hfresh hmax hnodup
          rw [List.map_cons, List.nodup_cons] at hnodup
          have hne : mmax ≠ m := by
            intro he
            rw [he] at hfresh
            exact absurd hfresh (not_le.mpr hstale)
          have hmm2 : mmax ∈ t := by
            rcases List.mem_cons.mp hmm with he | hmm2
            · exact absurd he hne
            · exact hmm2
          have hlast := hrec.2 mmax hmm2 hfresh
            (fun m2 hm2 => hmax m2 (List.mem_cons_of_mem m hm2))
            hnodup.2
          simpa using hlast
      · push_neg at hstale
        obtain ⟨hhandler, happlied⟩ :=
          (transformStep_char slerpFn ctx reg m obj O A lu T hregm hms
            hnotself).1 hstale
        have hreg2 : Registry.find? (onReceiveTransform slerpFn ctx reg m) id =
            some ⟨applyRelativeTransform slerpFn ctx.sandboxRoot
                ctx.interpolationFactor obj m.relativePosition m.relativeRotation,
              O, A, m.timestamp, T⟩ := by
          rw [hhandler, ← hmid, Registry.find?_store_self]
        have hrec := ih (onReceiveTransform slerpFn ctx reg m) _ m.timestamp
          hreg2 hidt hst
        rw [transformTrace_cons, happlied]
        constructor
        · intro m2 hm2
          simp only [if_true, List.singleton_append, List.mem_cons] at hm2
          rcases hm2 with he | hm2
          · rw [he]; exact hstale
          · exact le_trans hstale (hrec.1 m2 hm2)
        · intro mmax hmm hfresh hmax hnodup
          rw [List.map_cons, List.nodup_cons] at hnodup
          by_cases hemm : mmax = m
          · subst hemm
            have hstalet : ∀ m2 ∈ t, m2.timestamp < mmax.timestamp := by
              intro m2 hm2
              refine lt_of_le_of_ne (hmax m2 (List.mem_cons_of_mem mmax hm2)) ?_
              intro he
              exact hnodup.1
                (by rw [← he]; exact List.mem_map_of_mem _ hm2)
            have hempty := transformTrace_stale slerpFn ctx id O A T hnotself t
              (onReceiveTransform slerpFn ctx reg mmax) _ mmax.timestamp hreg2
              hidt hst hstalet
            rw [hempty]
            simp
          · have hmm2 : mmax ∈ t := by
              rcases List.mem_cons.mp hmm with he | hmm2
              · exact absurd he hemm
              · exact hmm2
            have hlast := hrec.2 mmax hmm2 (hmax m (List.mem_cons_self m t))
              (fun m2 hm2 => hmax m2 (List.mem_cons_of_mem m hm2))
              hnodup.2
            have hne2 : (transformTrace slerpFn ctx
                (onReceiveTransform slerpFn ctx reg m) t).2 ≠ [] := by
              intro he
              rw [he] at hlast
              cases hlast
            rw [if_pos rfl, List.getLast?_append_of_ne_nil _ hne2]
            exact hlast

/-- C5: delivering a batch of owner-matching Transform messages with
distinct timestamps in ANY order, a message whose timestamp is below the
entity's stored `lastUpdate` is never applied, and the last applied
message — hence the final applied pose — is the one carrying the maximum
timestamp among the batch (provided it is not below the stored
timestamp), a characterization independent of the delivery permutation. -/
theorem C5_transform_reorder (slerpFn : SlerpFn) (ctx : SyncContext)
    (reg : Registry) (id : String) (data : SyncedTrackedObject)
    (msgs : List TrackedImageTransformMessage)
    (mmax : TrackedImageTransformMessage)
    (hreg : Registry.find? reg id = some data)
    (hid : ∀ m ∈ msgs, m.imageId = id)
    (hsender : ∀ m ∈ msgs, m.senderId = data.ownerId)
    (hnotself : ¬(data.ownerId = ctx.localId ∧ data.isLocallyTracked))
    (hnodup : (msgs.map (fun m => m.timestamp)).Nodup)
    (hmem : mmax ∈ msgs)
    (hfresh : data.lastUpdate ≤ mmax.timestamp)
    (hmax : ∀ m ∈ msgs, m.timestamp ≤ mmax.timestamp) :
    (∀ m ∈ (transformTrace slerpFn ctx reg msgs).2,
       data.lastUpdate ≤ m.timestamp) ∧
    ((transformTrace slerpFn ctx reg msgs).2).getLast? = some mmax ∧
    (((transformTrace slerpFn ctx reg msgs).2).getLast?).map
        (fun m => (m.relativePosition, m.relativeRotation)) =
      some (mmax.relativePosition, mmax.relativeRotation) := by
  have hmain := transformTrace_main slerpFn ctx id data.ownerId data.assetIndex
    data.isLocallyTracked hnotself msgs reg data.object data.lastUpdate hreg
    hid hsender
  have hlast := hmain.2 mmax hmem hfresh hmax hnodup
  refine ⟨hmain.1, hlast, ?_⟩
  rw [hlast]
  rfl

/-- A transform from the owner with timestamp 120. -/
def c5M120 : TrackedImageTransformMessage := { wTMsg with timestamp := 120 }

/-- A transform from the owner with a stale timestamp 90. -/
def c5M90 : TrackedImageTransformMessage := { wTMsg with timestamp := 90 }

/-- Witness for C5 at a concrete out-of-order batch (120, then 150, then
90, against stored timestamp 100). -/
theorem C5_transform_reorder_witness :
    (∀ m ∈ (transformTrace wSlerp wCtx wReg [c5M120, wTMsg, c5M90]).2,
       wData.lastUpdate ≤ m.timestamp) ∧
    ((transformTrace wSlerp wCtx wReg [c5M120, wTMsg, c5M90]).2).getLast? =
      some wTMsg ∧
    (((transformTrace wSlerp wCtx wReg [c5M120, wTMsg, c5M90]).2).getLast?).map
        (fun m => (m.relativePosition, m.relativeRotation)) =
      some (wTMsg.relativePosition, wTMsg.relativeRotation) :=
  C5_transform_reorder wSlerp wCtx wReg "tracked_image_0" wData
    [c5M120, wTMsg, c5M90] wTMsg (by decide) (by decide) (by decide)
    (by decide) (by decide) (by decide) (by decide) (by decide)

end ImageSync

